import Mathlib

/-!
Verification of the oncall-assistant-agent backend analysis pipeline.

Python strings are modelled as lists of characters (code points), so that the
semantics of slicing, splitting and stripping match CPython's. Pure helper
functions from app/services/analysis_service.py and app/services/llm_service.py
are translated directly; the streaming orchestrator is translated as a
deterministic function of an environment that records the answers of every
external collaborator (database commits, connectors, synthetic test data,
the reasoning oracle) and the value read by every cancellation check.
-/

abbrev PyStr := List Char

/-- The whitespace set of CPython's str.split / str.strip (ASCII part). -/
def isWS (c : Char) : Bool :=
  c == ' ' || c == '\t' || c == '\n' || c == '\r' || c == Char.ofNat 11 || c == Char.ofNat 12

/-- Accumulator worker for whitespace splitting (CPython str.split()). -/
def wordsAux : PyStr → PyStr → List PyStr
  | [], cur => if cur = [] then [] else [cur.reverse]
  | c :: s, cur =>
    if isWS c then
      if cur = [] then wordsAux s [] else cur.reverse :: wordsAux s []
    else wordsAux s (c :: cur)

/-- CPython str.split() with no argument: split on whitespace runs, dropping empties. -/
def pySplitWs (s : PyStr) : List PyStr := wordsAux s []

/-- CPython sep.join. -/
def pyJoin (sep : PyStr) : List PyStr → PyStr
  | [] => []
  | [t] => t
  | t :: ts => t ++ sep ++ pyJoin sep ts

/-- CPython " ".join. -/
def joinSp (ts : List PyStr) : PyStr := pyJoin [' '] ts

/-- Leftmost occurrence of the separator t in s: returns (before, after). -/
def splitFirst (t : PyStr) : PyStr → Option (PyStr × PyStr)
  | [] => if t.isPrefixOf ([] : PyStr) then some ([], []) else none
  | c :: cs =>
    if t.isPrefixOf (c :: cs) then some ([], (c :: cs).drop t.length)
    else (splitFirst t cs).map fun p => (c :: p.1, p.2)

/-- CPython substring containment (the in operator on str). -/
def pyContains (t s : PyStr) : Bool := (splitFirst t s).isSome

/-- Element 0 of CPython s.split(t): the part before the first occurrence of t. -/
def splitHead (t s : PyStr) : PyStr :=
  match splitFirst t s with
  | none => s
  | some p => p.1

/-- Element 1 of CPython s.split(t): between the first and second occurrence of t.
In the source this indexing is only reached after an in-check guaranteeing an
occurrence, so the none branch is unreachable. -/
def pySplitGet1 (t s : PyStr) : PyStr :=
  match splitFirst t s with
  | none => []
  | some p => splitHead t p.2

/-- CPython str.strip() (whitespace on both ends). -/
def pyStrip (s : PyStr) : PyStr :=
  ((s.dropWhile isWS).reverse.dropWhile isWS).reverse

/-- CPython str.lower (ASCII case folding; the alphabets used here are ASCII or Chinese). -/
def pyLower (s : PyStr) : PyStr := s.map Char.toLower

/-- CPython negative-start slice l[-n:]. -/
def lastN (n : Nat) (l : List ℚ) : List ℚ := l.drop (l.length - n)

/-- Assignment d[k] = v on an insertion-ordered string dict. -/
def dictSet (k v : String) : List (String × String) → List (String × String)
  | [] => [(k, v)]
  | (k', v') :: rest => if k' = k then (k, v) :: rest else (k', v') :: dictSet k v rest

/-- CPython d.get(k, dflt). -/
def dictGet (k dflt : String) (d : List (String × String)) : String :=
  match d.lookup k with
  | some v => v
  | none => dflt

/-- Parsed intent, from app/schemas/analysis.py IntentResult. -/
structure IntentResult where
  summary : PyStr
  alert_type : String
  affected_system : Option PyStr
  keywords : List PyStr
  suggested_metrics : List String
deriving Repr, DecidableEq

/-- The stop-word set of analysis_service._extract_keywords. -/
def stopWords : List PyStr :=
  ["的", "是", "在", "了", "和", "与", "或", "a", "the", "is", "at", "for",
   "to", "and", "or"].map String.toList

/-- The punctuation-to-space replacement of analysis_service._extract_keywords:
the four single-character replaces applied there act pointwise. -/
def puncToSpace (c : Char) : Char :=
  if c = '，' || c = '。' || c = ',' || c = '.' then ' ' else c

/-- analysis_service._extract_keywords: split the alert into tokens, drop stop
words and one-character tokens, keep at most 10, and join them with spaces. -/
def extractKeywords (alert_content : PyStr) : PyStr :=
  let words := pySplitWs (alert_content.map puncToSpace)
  let keywords := words.filter fun w =>
    !stopWords.contains (pyLower w) && decide (1 < w.length)
  joinSp (keywords.take 10)

/-- analysis_service._understand_intent: pure classification of the alert text. -/
def understandIntent (alert_content : PyStr) : IntentResult :=
  let content_lower := pyLower alert_content
  let hasAny (ks : List String) : Bool :=
    ks.any fun k => pyContains k.toList content_lower
  let alert_type :=
    if hasAny ["cpu", "内存", "memory", "disk", "磁盘", "load"] then "performance"
    else if hasAny ["error", "错误", "exception", "异常", "fail"] then "error"
    else if hasAny ["down", "宕机", "unreachable", "超时", "timeout"] then "availability"
    else if hasAny ["network", "网络", "connection", "连接"] then "network"
    else "general"
  let keywords := pySplitWs (extractKeywords alert_content)
  let affected_system := (pySplitWs alert_content).find? fun w =>
    List.isSuffixOf "-service".toList w || List.isSuffixOf "服务".toList w
  let suggested_metrics :=
    if alert_type = "performance" then ["cpu_usage", "memory_usage", "disk_usage"]
    else if alert_type = "availability" then ["up", "response_time", "error_rate"]
    else if alert_type = "network" then ["network_in", "network_out", "connection_count"]
    else []
  { summary := if 100 < alert_content.length then alert_content.take 100 else alert_content
    alert_type := alert_type
    affected_system := affected_system
    keywords := keywords
    suggested_metrics := suggested_metrics }

/-- analysis_service._translate_category. -/
def translateCategory (category : String) : String :=
  if category = "code_issue" then "代码问题"
  else if category = "config_issue" then "配置问题"
  else if category = "resource_bottleneck" then "资源瓶颈"
  else if category = "dependency_failure" then "依赖故障"
  else category

/-- A log entry as stored in ContextData.logs (app/schemas/analysis.py LogEntry);
the .get defaults applied when the dict is built are folded into the fields. -/
structure LogEntry where
  timestamp : String
  level : String
  message : String
  source : String
deriving Repr, DecidableEq

/-- One (timestamp, value) point of a metric series. Metric values are CPython
floats; they are modelled as rationals, which is exact for every property
stated here (counts, selection of points, comparisons). -/
structure MetricPoint where
  timestamp : String
  value : ℚ
deriving Repr, DecidableEq

/-- A metric series in the format expected by the LLM service. -/
structure MetricSeries where
  metric_name : String
  labels : List (String × String)
  values : List MetricPoint
deriving Repr, DecidableEq

/-- A raw sample from test_data_service.get_test_metrics (fields name, labels,
value, timestamp of the returned dicts, with .get defaults folded in). -/
structure RawMetric where
  name : String
  labels : List (String × String)
  value : ℚ
  timestamp : String
deriving Repr, DecidableEq

/-- app/schemas/analysis.py AnalysisResult: the Verdict. -/
structure AnalysisResult where
  root_cause : String
  evidence : String
  category : String
  temporary_solution : String
  permanent_solution : String
  confidence : Option ℚ
deriving Repr, DecidableEq

/-- llm_service._format_logs, one line: "[ts] [level] message". -/
def formatLogLine (l : LogEntry) : String :=
  "[" ++ l.timestamp ++ "] [" ++ l.level ++ "] " ++ l.message

/-- The list of formatted lines built by llm_service._format_logs (logs[:50]). -/
def formatLogLines (logs : List LogEntry) : List String :=
  (logs.take 50).map formatLogLine

/-- llm_service._format_logs. -/
def formatLogs (logs : List LogEntry) : String :=
  if logs.isEmpty then "无相关日志数据"
  else String.intercalate "\n" (formatLogLines logs)

/-- CPython max over a nonempty list (the empty branch is unreachable at every
call site and only keeps the function total). -/
def listMax : List ℚ → ℚ
  | [] => 0
  | x :: xs => xs.foldl max x

/-- CPython min over a nonempty list. -/
def listMin : List ℚ → ℚ
  | [] => 0
  | x :: xs => xs.foldl min x

/-- The per-series summary computed by llm_service._format_metrics before its
final f-string rendering: the last 5 values with their average, max and min.
The decimal rendering of these numbers is presentation only and not modelled. -/
structure MetricSummary where
  name : String
  labels : List (String × String)
  recent : List ℚ
  avg : ℚ
  mx : ℚ
  mn : ℚ
deriving Repr, DecidableEq

/-- The body of the loop in llm_service._format_metrics: series with no values
are skipped, the rest are summarized from values[-5:]. -/
def summarizeMetric (m : MetricSeries) : Option MetricSummary :=
  match m.values with
  | [] => none
  | _ :: _ =>
    let recent := lastN 5 (m.values.map MetricPoint.value)
    some { name := m.metric_name, labels := m.labels, recent := recent,
           avg := recent.sum / (recent.length : ℚ),
           mx := listMax recent, mn := listMin recent }

/-- llm_service._format_metrics: at most the first 20 series, each summarized. -/
def metricSummaries (metrics : List MetricSeries) : List MetricSummary :=
  (metrics.take 20).filterMap summarizeMetric

/-- The single request llm_service builds for the reasoning oracle: the raw
alert plus the formatted log and metric contexts of the prompt. -/
structure OracleRequest where
  alert_content : PyStr
  log_context : List String
  metrics_context : List MetricSummary
deriving Repr, DecidableEq

/-- The ANALYSIS_PROMPT payload of llm_service._analyze_with_openai. -/
def buildOracleRequest (alert_content : PyStr) (logs : List LogEntry)
    (metrics : List MetricSeries) : OracleRequest :=
  { alert_content := alert_content
    log_context := formatLogLines logs
    metrics_context := metricSummaries metrics }

/-- The JSON object fields read by llm_service from a decoded oracle response;
none models an absent key (result_data.get then falls back to its default). -/
structure VerdictJson where
  root_cause : Option String
  evidence : Option String
  category : Option String
  temporary_solution : Option String
  permanent_solution : Option String
  confidence : Option ℚ
deriving Repr, DecidableEq

/-- Outcome of json.loads plus the dict lookups on the stripped oracle text:
badJson models json.JSONDecodeError, nonDict models a decode to a non-dict
value (the subsequent .get raises and is caught by the outer handler), and
obj is a successful decode to an object. -/
inductive DecodeResult where
  | badJson : DecodeResult
  | nonDict : String → DecodeResult
  | obj : VerdictJson → DecodeResult
deriving Repr, DecidableEq

/-- Environment of one llm_service call: whether the configured API key is
empty, the transport outcome of the chat completion (error message or response
text), and the JSON decoding of strings, modelled abstractly as a function so
that one fixed decoder is shared by every parse of the same call. -/
structure LLMEnv where
  apiKeyEmpty : Bool
  transport : Except String PyStr
  decode : PyStr → DecodeResult

def ticks : PyStr := ['`', '`', '`']

def jsonFence : PyStr := ['`', '`', '`', 'j', 's', 'o', 'n']

/-- The markdown code-fence stripping of llm_service._analyze_with_openai. -/
def stripCodeFence (content : PyStr) : PyStr :=
  if pyContains jsonFence content then splitHead ticks (pySplitGet1 jsonFence content)
  else if pyContains ticks content then splitHead ticks (pySplitGet1 ticks content)
  else content

/-- The JSON-parsing block of llm_service._analyze_with_openai, lines 144-170:
strip any fence, decode, and on JSONDecodeError synthesize the 0.3-confidence
fallback verdict; a decode to a non-dict propagates to the outer handler. -/
def parseOracleContent (decode : PyStr → DecodeResult) (content : PyStr) :
    Except String AnalysisResult :=
  let content1 := stripCodeFence content
  match decode (pyStrip content1) with
  | .obj o =>
    .ok { root_cause := o.root_cause.getD "未能确定根因"
          evidence := o.evidence.getD ""
          category := o.category.getD "code_issue"
          temporary_solution := o.temporary_solution.getD ""
          permanent_solution := o.permanent_solution.getD ""
          confidence := some (o.confidence.getD (1/2)) }
  | .badJson =>
    .ok { root_cause := String.mk (content1.take 500)
          evidence := "LLM返回非JSON格式"
          category := "code_issue"
          temporary_solution := "请查看原始分析结果"
          permanent_solution := "请查看原始分析结果"
          confidence := some (3/10) }
  | .nonDict e => .error e

/-- The verdict built by the outer exception handler of _analyze_with_openai. -/
def llmErrorResult (e : String) : AnalysisResult :=
  { root_cause := "分析过程出错: " ++ e
    evidence := ""
    category := "code_issue"
    temporary_solution := "请检查LLM配置和网络连接"
    permanent_solution := "确保API密钥正确且网络畅通"
    confidence := some 0 }

/-- llm_service._analyze_with_openai. -/
def analyzeWithOpenai (env : LLMEnv) (alert_content : PyStr) (logs : List LogEntry)
    (metrics : List MetricSeries) : AnalysisResult :=
  if env.apiKeyEmpty then
    { root_cause := "API密钥未配置，无法进行分析"
      evidence := "请配置LLM API密钥环境变量"
      category := "config_issue"
      temporary_solution := "配置LLM API密钥"
      permanent_solution := "在docker-compose.yml中设置OPENAI_API_KEY"
      confidence := some 0 }
  else
    let _request := buildOracleRequest alert_content logs metrics
    match env.transport with
    | .error e => llmErrorResult e
    | .ok content =>
      match parseOracleContent env.decode content with
      | .ok r => r
      | .error e => llmErrorResult e

/-- llm_service.analyze_alert: both provider branches call _analyze_with_openai,
and the call always produces a result (the Optional is never None). -/
def analyzeAlert (env : LLMEnv) (alert_content : PyStr) (logs : List LogEntry)
    (metrics : List MetricSeries) : Option AnalysisResult :=
  some (analyzeWithOpenai env alert_content logs metrics)

/-- app/models/datasource.py DataSourceType. -/
inductive DataSourceType where
  | elk : DataSourceType
  | loki : DataSourceType
  | prometheus : DataSourceType
deriving Repr, DecidableEq

/-- The fields of a DataSource row used by the collection code. -/
structure DataSource where
  id : Nat
  name : String
  type : DataSourceType
deriving Repr, DecidableEq

/-- app/schemas/analysis.py ContextData: logs, metrics and the per-source
status map (an insertion-ordered dict). -/
structure ContextData where
  logs : List LogEntry := []
  metrics : List MetricSeries := []
  collection_status : List (String × String) := []
deriving Repr, DecidableEq

/-- app/schemas/analysis.py AnalysisRequest. -/
structure AnalysisRequest where
  alert_content : PyStr
  time_range_minutes : Nat := 30
  datasource_ids : Option (List Nat) := none
deriving Repr, DecidableEq

/-- A conversation message appended by AnalysisSession.add_message; the
wall-clock timestamp and the optional data payload are not modelled. -/
structure Msg where
  role : String
  content : String
  stage : Option String
deriving Repr, DecidableEq

/-- The AnalysisSession fields touched by the pipeline. -/
structure Session where
  id : Nat
  alert_content : PyStr
  status : String := "pending"
  current_stage : Option String := none
  messages : List Msg := []
  intent : Option IntentResult := none
  context_data : Option ContextData := none
  analysis_result : Option AnalysisResult := none
deriving Repr, DecidableEq

/-- Environment of stage-2 collection: the answers of the connectors (per
datasource id; an error value is an exception raised inside the try block,
an ok value the queried records -- for Prometheus the ok list is the
all_metrics aggregation, whose per-query exceptions the source swallows)
and of the synthetic test-data collaborator. -/
structure CollectEnv where
  connectorLogs : Nat → Except String (List LogEntry)
  connectorMetrics : Nat → Except String (List MetricSeries)
  testLogs : PyStr → List LogEntry
  testMetrics : List RawMetric

/-- The metric-format conversion applied to raw test metrics in
analysis_service (dicts with metric_name, labels and one timestamped value). -/
def convertRawMetric (m : RawMetric) : MetricSeries :=
  { metric_name := m.name, labels := m.labels,
    values := [{ timestamp := m.timestamp, value := m.value }] }

/-- The source prefix "测试数据: " applied to fallback logs. -/
def tagTestLog (l : LogEntry) : LogEntry :=
  { l with source := "测试数据: " ++ l.source }

/-- The source prefix "name: " applied to logs collected through a datasource. -/
def tagDsLog (name : String) (l : LogEntry) : LogEntry :=
  { l with source := name ++ ": " ++ l.source }

/-- The collection_status key for a datasource. -/
def dsKey (ds : DataSource) : String := "ds_" ++ toString ds.id

/-- analysis_service._collect_from_datasource: query one source, substituting
synthetic test data when the connector returns nothing or raises, and record
the outcome in the status map. -/
def collectFromDatasource (cenv : CollectEnv) (ds : DataSource) (query_str : PyStr)
    (context : ContextData) : ContextData :=
  match ds.type with
  | .elk | .loki =>
    match cenv.connectorLogs ds.id with
    | .ok logs =>
      let (logs, status) :=
        if logs.isEmpty then
          let test_logs := cenv.testLogs query_str
          if !test_logs.isEmpty then
            (test_logs, "从测试数据收集到 " ++ toString test_logs.length ++ " 条日志")
          else (logs, "未找到相关日志")
        else (logs, "收集到 " ++ toString logs.length ++ " 条日志")
      let context := { context with
        collection_status := dictSet (dsKey ds) status context.collection_status }
      { context with logs := context.logs ++ logs.map (tagDsLog ds.name) }
    | .error e =>
      let test_logs := cenv.testLogs query_str
      if !test_logs.isEmpty then
        { context with
          logs := context.logs ++ test_logs.map tagTestLog
          collection_status := dictSet (dsKey ds)
            ("数据源连接失败，从测试数据收集到 " ++ toString test_logs.length ++ " 条日志")
            context.collection_status }
      else
        { context with
          collection_status :=
            dictSet (dsKey ds) ("连接失败: " ++ e.take 50) context.collection_status }
  | .prometheus =>
    match cenv.connectorMetrics ds.id with
    | .ok metrics =>
      let (all_metrics, status) :=
        if metrics.isEmpty then
          let test_metrics := cenv.testMetrics
          if !test_metrics.isEmpty then
            (test_metrics.map convertRawMetric,
             "从测试数据收集到 " ++ toString test_metrics.length ++ " 条指标")
          else (metrics, "未找到相关指标")
        else (metrics, "收集到 " ++ toString metrics.length ++ " 条指标")
      let context := { context with
        collection_status := dictSet (dsKey ds) status context.collection_status }
      { context with metrics := context.metrics ++ all_metrics }
    | .error e =>
      let test_metrics := cenv.testMetrics
      if !test_metrics.isEmpty then
        { context with
          metrics := context.metrics ++ test_metrics.map convertRawMetric
          collection_status := dictSet (dsKey ds)
            ("数据源连接失败，从测试数据收集到 " ++ toString test_metrics.length ++ " 条指标")
            context.collection_status }
      else
        { context with
          collection_status :=
            dictSet (dsKey ds) ("连接失败: " ++ e.take 50) context.collection_status }

/-- The no-datasource branch of stage 2 (stream_analysis lines 197-222): load
synthetic test data once, keyed by the extracted keywords, into a fresh
Context under the test_logs / test_metrics status keys. -/
def collectNoDatasources (cenv : CollectEnv) (keywords : PyStr) : ContextData :=
  let context : ContextData := {}
  let test_logs := cenv.testLogs keywords
  let context :=
    if !test_logs.isEmpty then
      { context with
        logs := context.logs ++ test_logs.map tagTestLog
        collection_status := dictSet "test_logs"
          ("从测试数据收集到 " ++ toString test_logs.length ++ " 条日志")
          context.collection_status }
    else context
  let test_metrics := cenv.testMetrics
  if !test_metrics.isEmpty then
    { context with
      metrics := context.metrics ++ test_metrics.map convertRawMetric
      collection_status := dictSet "test_metrics"
        ("从测试数据收集到 " ++ toString test_metrics.length ++ " 条指标")
        context.collection_status }
  else context

/-- The event discriminator of app/schemas/analysis.py StreamEvent. -/
inductive EvKind where
  | stage_start : EvKind
  | stage_progress : EvKind
  | stage_complete : EvKind
  | message : EvKind
  | error : EvKind
  | cancelled : EvKind
  | done : EvKind
deriving Repr, DecidableEq

/-- app/schemas/analysis.py StreamEvent (the optional data payload, a free-form
dict that no property here inspects, is not modelled). -/
structure StreamEvent where
  event : EvKind
  stage : Option String := none
  content : String := ""
  progress : Option Nat := none
deriving Repr, DecidableEq

def evStart (stage content : String) : StreamEvent :=
  { event := .stage_start, stage := some stage, content := content }

def evProgress (stage content : String) (p : Option Nat) : StreamEvent :=
  { event := .stage_progress, stage := some stage, content := content, progress := p }

def evComplete (stage content : String) : StreamEvent :=
  { event := .stage_complete, stage := some stage, content := content }

def evMessage (stage content : String) : StreamEvent :=
  { event := .message, stage := some stage, content := content }

def evError (content : String) : StreamEvent :=
  { event := .error, content := content }

def evDone (content : String) : StreamEvent :=
  { event := .done, content := content }

def evCancelled : StreamEvent := { event := .cancelled, content := "分析已取消" }

/-- The module-level cancellation registry of analysis_service:
_active_sessions and _cancelled_sessions. -/
structure Registry where
  active : Finset ℕ
  cancelled : Finset ℕ
deriving DecidableEq

/-- analysis_service.is_session_cancelled. -/
def isSessionCancelled (session_id : ℕ) (r : Registry) : Bool :=
  decide (session_id ∈ r.cancelled)

/-- analysis_service.cancel_session: request cancellation, true only if the
session is currently active. -/
def cancelSession (session_id : ℕ) (r : Registry) : Bool × Registry :=
  if session_id ∈ r.active then (true, { r with cancelled := insert session_id r.cancelled })
  else (false, r)

/-- Environment of one stream_analysis run. The registry is mutated
concurrently by cancel requests, so the value read by the k-th
is_session_cancelled check of the run is recorded as the oracle cancel k;
commitFail k is the outcome of the k-th database commit of the run (none on
success, an exception message when the commit raises). -/
structure StreamEnv where
  cancel : Nat → Bool
  commitFail : Nat → Option String
  datasources : List DataSource
  collect : CollectEnv
  llm : LLMEnv

/-- The running state of one pipeline execution: emitted events, the session
object, and position counters for the two oracles. -/
structure RunSt where
  events : List StreamEvent
  sess : Session
  cc : Nat
  fc : Nat
deriving DecidableEq

/-- Result of a pipeline segment: continue with a value, stop because a
cancellation was observed (the cancelled event is already emitted), or
unwind with a pending exception for the top-level handler. -/
inductive StepRes (α : Type) where
  | cont : RunSt → α → StepRes α
  | halt : RunSt → StepRes α
  | fail : RunSt → String → StepRes α
deriving DecidableEq

def emitEv (st : RunSt) (e : StreamEvent) : RunSt :=
  { st with events := st.events ++ [e] }

def addMsg (st : RunSt) (role content : String) (stage : Option String) : RunSt :=
  { st with sess := { st.sess with
      messages := st.sess.messages ++ [{ role := role, content := content, stage := stage }] } }

/-- One is_session_cancelled check: consume the next oracle value; when it is
true the cancelled event is emitted and the caller returns. -/
def checkCancelB (env : StreamEnv) (st : RunSt) : Bool × RunSt :=
  let observed := env.cancel st.cc
  let st := { st with cc := st.cc + 1 }
  if observed then (true, emitEv st evCancelled) else (false, st)

/-- One database commit: consume the next oracle value; some message means the
commit raised and the exception unwinds to the top-level handler. -/
def commitR (env : StreamEnv) (st : RunSt) : Option String × RunSt :=
  (env.commitFail st.fc, { st with fc := st.fc + 1 })

/-- The field updates of update_session_status (the commit is a separate step). -/
def statusSet (st : RunSt) (status : String) (stage : Option String) : RunSt :=
  { st with sess := { st.sess with
      status := status
      current_stage := match stage with | some g => some g | none => st.sess.current_stage } }

/-- CPython ", ".join over keyword tokens. -/
def joinCommaSp (ts : List PyStr) : PyStr := pyJoin ", ".toList ts

/-- The confidence percentage rendered in the stage-3 message (int truncation). -/
def confidencePercent (c : Option ℚ) : Int :=
  match c with
  | some q => Rat.floor (q * 100)
  | none => 0

/-- The per-datasource loop of stage 2 (stream_analysis lines 233-251): check
for cancellation, emit a progress event, collect from the source, append the
per-source message and commit. -/
def collectLoop (env : StreamEnv) (keywords : PyStr) (total_ds : Nat) :
    List DataSource → Nat → RunSt → ContextData → StepRes ContextData
  | [], _, st, context => .cont st context
  | ds :: rest, i, st, context =>
    match checkCancelB env st with
    | (true, st) => .halt st
    | (false, st) =>
      let st := emitEv st (evProgress "data_collection" ("正在查询数据源: " ++ ds.name)
        (some ((i * 100) / total_ds)))
      let context := collectFromDatasource env.collect ds keywords context
      let st := addMsg st "assistant"
        ("📥 从 **" ++ ds.name ++ "** 收集到 " ++
          dictGet (dsKey ds) "0 条数据" context.collection_status)
        (some "data_collection")
      match commitR env st with
      | (some m, st) => .fail st m
      | (none, st) => collectLoop env keywords total_ds rest (i + 1) st context

/-- The stage-2 body of stream_analysis after the stage_start event: either
the synthetic-data branch (no datasources configured) or the per-source loop. -/
def stage2Collect (env : StreamEnv) (intent : IntentResult) (request : AnalysisRequest)
    (st : RunSt) : StepRes ContextData :=
  if env.datasources.isEmpty then
    let st := addMsg st "assistant" "⚠️ 未配置数据源，将使用测试数据" (some "data_collection")
    let st := emitEv st (evProgress "data_collection" "未配置数据源，正在加载测试数据..." (some 50))
    let keywords := if !intent.keywords.isEmpty then joinSp intent.keywords else []
    let context := collectNoDatasources env.collect keywords
    let st := addMsg st "assistant"
      ("📥 从测试数据收集到 " ++ toString (env.collect.testLogs keywords).length ++
        " 条日志, " ++ toString env.collect.testMetrics.length ++ " 条指标")
      (some "data_collection")
    .cont st context
  else
    let keywords :=
      if !intent.keywords.isEmpty then joinSp intent.keywords
      else extractKeywords request.alert_content
    collectLoop env keywords env.datasources.length env.datasources 0 st {}

/-- The result-message block of stage 3 (lines 300-346): store the verdict
and emit one message event per verdict field, then append the root-cause
conversation message. -/
def emitResultMessages (r : AnalysisResult) (st : RunSt) : RunSt :=
  let st := { st with sess := { st.sess with analysis_result := some r } }
  let st := emitEv st (evMessage "llm_analysis" ("## 🎯 根因分析\n" ++ r.root_cause))
  let st := emitEv st (evMessage "llm_analysis" ("## 📋 证据\n" ++ r.evidence))
  let st := emitEv st (evMessage "llm_analysis"
    ("## 🏷️ 问题分类\n" ++ translateCategory r.category))
  let st := emitEv st (evMessage "llm_analysis" ("## 🚑 临时解决方案\n" ++ r.temporary_solution))
  let st := emitEv st (evMessage "llm_analysis" ("## 🔧 根本解决方案\n" ++ r.permanent_solution))
  let st := emitEv st (evMessage "llm_analysis"
    ("## 📊 置信度\n" ++ toString (confidencePercent r.confidence) ++ "%"))
  addMsg st "assistant" ("**根因分析**: " ++ r.root_cause) (some "llm_analysis")

/-- The tail of stage 3 (lines 348-365): the commit after the result, the
stage_complete event, the completed status and closing message with their
commits, and the terminal done event. -/
def finishStage3 (env : StreamEnv) (st : RunSt) : StepRes Unit :=
  match commitR env st with
  | (some m, st) => .fail st m
  | (none, st) =>
  let st := emitEv st (evComplete "llm_analysis" "✅ 分析完成")
  let st := statusSet st "completed" none
  match commitR env st with
  | (some m, st) => .fail st m
  | (none, st) =>
  let st := addMsg st "assistant" "分析完成！您可以继续提问或请求进一步分析。" (some "completed")
  match commitR env st with
  | (some m, st) => .fail st m
  | (none, st) =>
  let st := emitEv st (evDone "分析完成")
  .cont st ()

/-- Stage 3 of stream_analysis (lines 266-365), entered with the collected
context: the pre-stage cancellation check, the llm_analysis stage events and
messages, the reasoning call, the post-call cancellation check, the result
messages and the terminal tail. -/
def stage3Run (env : StreamEnv) (request : AnalysisRequest) (context : ContextData)
    (st : RunSt) : StepRes Unit :=
  match checkCancelB env st with
  | (true, st) => .halt st
  | (false, st) =>
  let st := emitEv st (evStart "llm_analysis" "🤖 正在调用大模型进行分析...")
  let st := statusSet st "llm_analysis" (some "llm_analysis")
  match commitR env st with
  | (some m, st) => .fail st m
  | (none, st) =>
  let st := addMsg st "assistant" "🤖 正在分析告警原因，请稍候..." (some "llm_analysis")
  match commitR env st with
  | (some m, st) => .fail st m
  | (none, st) =>
  let st := emitEv st (evProgress "llm_analysis" "大模型正在思考中..." (some 30))
  let result := analyzeAlert env.llm request.alert_content context.logs context.metrics
  match checkCancelB env st with
  | (true, st) => .halt st
  | (false, st) =>
  let st :=
    match result with
    | some r => emitResultMessages r st
    | none => st
  finishStage3 env st

/-- Stage 2 of stream_analysis (lines 171-262): the pre-stage cancellation
check, the data_collection stage events, the collection itself, the context
save and the stage_complete event. -/
def stage2Run (env : StreamEnv) (request : AnalysisRequest) (intent : IntentResult)
    (st : RunSt) : StepRes ContextData :=
  match checkCancelB env st with
  | (true, st) => .halt st
  | (false, st) =>
  let st := emitEv st (evStart "data_collection" "📊 正在收集相关数据...")
  let st := statusSet st "data_collection" (some "data_collection")
  match commitR env st with
  | (some m, st) => .fail st m
  | (none, st) =>
  match stage2Collect env intent request st with
  | .halt st => .halt st
  | .fail st m => .fail st m
  | .cont st context =>
  let st := { st with sess := { st.sess with context_data := some context } }
  match commitR env st with
  | (some m, st) => .fail st m
  | (none, st) =>
  let st := emitEv st (evComplete "data_collection"
    ("✅ 数据收集完成: " ++ toString context.logs.length ++ " 条日志, " ++
      toString context.metrics.length ++ " 条指标"))
  .cont st context

/-- Stages 2 and 3 in sequence, as run after the stage-1 block. -/
def stage23Run (env : StreamEnv) (request : AnalysisRequest) (intent : IntentResult)
    (st : RunSt) : StepRes Unit :=
  match stage2Run env request intent st with
  | .halt st => .halt st
  | .fail st m => .fail st m
  | .cont st context => stage3Run env request context st

/-- The try-block of analysis_service.stream_analysis: stage 1 inline, then
the stage-2 and stage-3 runners, with every emitted event, session mutation,
commit and cancellation check in source order. The cosmetic asyncio.sleep
pacing calls are omitted (they emit nothing and change no state). -/
def pipelineBody (env : StreamEnv) (request : AnalysisRequest) (st0 : RunSt) : StepRes Unit :=
  let st := emitEv st0 (evStart "intent_understanding" "🔍 正在分析告警意图...")
  let st := statusSet st "intent_understanding" (some "intent_understanding")
  match commitR env st with
  | (some m, st) => .fail st m
  | (none, st) =>
  match checkCancelB env st with
  | (true, st) => .halt st
  | (false, st) =>
  let intent := understandIntent request.alert_content
  let st := { st with sess := { st.sess with intent := some intent } }
  let st := addMsg st "assistant" ("📋 **告警摘要**: " ++ String.mk intent.summary)
    (some "intent_understanding")
  let st := addMsg st "assistant" ("🏷️ **告警类型**: " ++ intent.alert_type)
    (some "intent_understanding")
  let st :=
    match intent.affected_system with
    | some sys => addMsg st "assistant" ("💻 **影响系统**: " ++ String.mk sys)
        (some "intent_understanding")
    | none => st
  let st := addMsg st "assistant" ("🔑 **关键词**: " ++ String.mk (joinCommaSp intent.keywords))
    (some "intent_understanding")
  match commitR env st with
  | (some m, st) => .fail st m
  | (none, st) =>
  let st := emitEv st (evProgress "intent_understanding"
    ("告警摘要: " ++ String.mk intent.summary) (some 100))
  let st := emitEv st (evComplete "intent_understanding" "✅ 意图分析完成")
  stage23Run env request intent st

/-- The try/except of stream_analysis: a pending exception is converted by the
handler into an error status, a system message and a single error event.
Failures inside the handler itself are not modelled. -/
def runPipeline (env : StreamEnv) (request : AnalysisRequest) (sess : Session) :
    List StreamEvent × Session :=
  match pipelineBody env request { events := [], sess := sess, cc := 0, fc := 0 } with
  | .cont st _ => (st.events, st.sess)
  | .halt st => (st.events, st.sess)
  | .fail st m =>
    let sess := { st.sess with
      status := "error"
      messages := st.sess.messages ++
        [{ role := "system", content := "分析出错: " ++ m, stage := some "error" }] }
    (st.events ++ [evError ("分析出错: " ++ m)], sess)

/-- Result of one full stream_analysis run: the event stream, the final
session object, and the registry after the finally block. -/
structure StreamResult where
  events : List StreamEvent
  sess : Session
  reg : Registry

/-- analysis_service.stream_analysis: register the session, run the pipeline,
and unconditionally discard the session from both registry sets on exit. -/
def streamAnalysis (env : StreamEnv) (sess : Session) (request : AnalysisRequest)
    (reg : Registry) : StreamResult :=
  let session_id := sess.id
  let reg1 : Registry := { reg with active := insert session_id reg.active }
  let out := runPipeline env request sess
  { events := out.1
    sess := out.2
    reg := { active := reg1.active.erase session_id
             cancelled := reg1.cancelled.erase session_id } }

/-- The cancel endpoint of app/api/analysis.py (lines 189-197): request
cancellation through the registry; on success mark the stored session
cancelled and append the system message, otherwise report not_active. -/
def cancelAnalysis (reg : Registry) (sess : Session) : Registry × Session × String :=
  let r := cancelSession sess.id reg
  if r.1 then
    (r.2, { sess with
      status := "cancelled"
      messages := sess.messages ++ [{ role := "system", content := "分析已被用户取消", stage := none }] },
     "cancelled")
  else (r.2, sess, "not_active")

/-- Substring occurrence: t occurs contiguously inside s. -/
def ContainsSub (t s : PyStr) : Prop := ∃ u v, s = u ++ t ++ v

/-- One observable stage block of the event protocol: a stage_start for the
stage, then only stage_progress / message events of that same stage, then a
stage_complete for it. -/
def IsStageBlock (stage : String) (evs : List StreamEvent) : Prop :=
  ∃ first mid last, evs = first :: mid ++ [last] ∧
    first.event = .stage_start ∧ first.stage = some stage ∧
    last.event = .stage_complete ∧ last.stage = some stage ∧
    ∀ e ∈ mid, (e.event = .stage_progress ∨ e.event = .message) ∧ e.stage = some stage

/-- The closed category set of the Verdict data model. -/
def verdictCategories : List String :=
  ["code_issue", "config_issue", "resource_bottleneck", "dependency_failure"]

/-- A decoder whose verdict objects respect the documented category and
confidence constraints of the data model. -/
def DecoderBounded (d : PyStr → DecodeResult) : Prop :=
  ∀ s o, d s = .obj o →
    (∀ c, o.category = some c → c ∈ verdictCategories) ∧
    (∀ q, o.confidence = some q → 0 ≤ q ∧ q ≤ 1)

/-- The sample alert of the specification's determinism property. -/
def sampleAlert : PyStr := "CPU usage at 95% on order-service".toList

/-- The oracle text wrapped in a json-tagged markdown fence. -/
def wrapJsonFence (body : PyStr) : PyStr := jsonFence ++ '\n' :: body ++ '\n' :: ticks

/-- The oracle text wrapped in a plain markdown fence. -/
def wrapPlainFence (body : PyStr) : PyStr := ticks ++ '\n' :: body ++ '\n' :: ticks

/-- A verdict object outside the documented closed category set and confidence
range, as produced by json.loads on an oracle reply such as one with category
weird_category and confidence 2. -/
def badVerdictJson : VerdictJson :=
  { root_cause := some "根因", evidence := some "证据", category := some "weird_category",
    temporary_solution := some "临时", permanent_solution := some "永久", confidence := some 2 }

/-- An oracle environment whose reply decodes to badVerdictJson. -/
def llmEnvCex : LLMEnv :=
  { apiKeyEmpty := false
    transport := .ok "oracle reply with category weird_category".toList
    decode := fun _ => .obj badVerdictJson }

/-- A JSON body containing a triple-backtick inside a string literal; the JSON
document itself is well-formed and decodes to a verdict object. -/
def fenceInsideBody : PyStr := "\x7b\"root_cause\": \"a```b\"\x7d".toList

/-- The object json.loads yields for fenceInsideBody. -/
def fenceInsideObj : VerdictJson :=
  { root_cause := some "a```b", evidence := none, category := none,
    temporary_solution := none, permanent_solution := none, confidence := none }

/-- A decoder consistent with json.loads on every string the C9 counterexample
parse reaches: it decodes fenceInsideBody and rejects its mangled fragments,
none of which is valid JSON. -/
def decodeCex (s : PyStr) : DecodeResult :=
  if s = fenceInsideBody then .obj fenceInsideObj else .badJson

/-- Events that are neither the terminal cancelled event nor the terminal done
event: the ordinary in-stage traffic of the protocol. -/
def CleanEvs (d : List StreamEvent) : Prop :=
  ∀ e ∈ d, e.event ≠ EvKind.cancelled ∧ e.event ≠ EvKind.done

/-- A collection environment with no connector data and no synthetic data,
used by the concrete witness runs. -/
def cenvW : CollectEnv :=
  { connectorLogs := fun _ => .ok []
    connectorMetrics := fun _ => .ok []
    testLogs := fun _ => []
    testMetrics := [] }

def llmW : LLMEnv :=
  { apiKeyEmpty := true, transport := .error "offline", decode := fun _ => .badJson }

def sessW : Session := { id := 1, alert_content := "x".toList }

def reqW : AnalysisRequest := { alert_content := "x".toList }

def regW : Registry := { active := {}, cancelled := {} }

def regActiveW : Registry := { active := {1}, cancelled := {} }

def envCancelW : StreamEnv :=
  { cancel := fun _ => true, commitFail := fun _ => none
    datasources := [], collect := cenvW, llm := llmW }

def envOkW : StreamEnv :=
  { cancel := fun _ => false, commitFail := fun _ => none
    datasources := [], collect := cenvW, llm := llmW }

/-- Witness fixtures of the fallback policy: an empty-logs connector, a
raising metrics connector, and a synthetic collaborator holding one log
record and one metric sample. -/
def logC2 : LogEntry :=
  { timestamp := "t1", level := "ERROR", message := "connection refused", source := "app" }

def rawC2 : RawMetric :=
  { name := "cpu_usage", labels := [], value := 95, timestamp := "t1" }

def cenvC2 : CollectEnv :=
  { connectorLogs := fun _ => .ok []
    connectorMetrics := fun _ => .error "boom"
    testLogs := fun _ => [logC2]
    testMetrics := [rawC2] }

def dsLC2 : DataSource := { id := 3, name := "loki-main", type := .loki }

def dsPC2 : DataSource := { id := 5, name := "prom", type := .prometheus }

def qC2 : PyStr := "cpu usage".toList

theorem containsSub_cons_iff (t : PyStr) (c : Char) (s : PyStr) :
    ContainsSub t (c :: s) ↔ t.isPrefixOf (c :: s) = true ∨ ContainsSub t s := by
  constructor
  · rintro ⟨u, v, huv⟩
    cases u with
    | nil =>
      left
      simp only [List.nil_append] at huv
      exact List.isPrefixOf_iff_prefix.mpr ⟨v, huv.symm⟩
    | cons d u =>
      right
      injection huv with h1 h2
      exact ⟨u, v, h2⟩
  · rintro (h | ⟨u, v, huv⟩)
    · obtain ⟨w, hw⟩ := List.isPrefixOf_iff_prefix.mp h
      exact ⟨[], w, by simp [← hw]⟩
    · exact ⟨c :: u, v, by simp [huv]⟩

theorem splitFirst_none_iff (t : PyStr) (ht : t ≠ []) (s : PyStr) :
    splitFirst t s = none ↔ ¬ ContainsSub t s := by
  induction s with
  | nil =>
    have h1 : splitFirst t [] = none := by
      obtain ⟨a, as, rfl⟩ := List.exists_cons_of_ne_nil ht
      simp [splitFirst, List.isPrefixOf]
    rw [h1]
    simp only [true_iff]
    rintro ⟨u, v, huv⟩
    have h2 := congrArg List.length huv
    simp only [List.length_nil, List.length_append] at h2
    have h3 : t.length = 0 := by omega
    exact ht (List.length_eq_zero.mp h3)
  | cons c cs ih =>
    by_cases hp : t.isPrefixOf (c :: cs) = true
    · constructor
      · intro h
        exfalso
        simp [splitFirst, hp] at h
      · intro h
        exact absurd ((containsSub_cons_iff t c cs).mpr (Or.inl hp)) h
    · have h4 : splitFirst t (c :: cs) = none ↔ splitFirst t cs = none := by
        simp [splitFirst, hp, Option.map_eq_none']
      rw [h4, ih, containsSub_cons_iff]
      simp [hp]

theorem splitFirst_prefix (t r : PyStr) : splitFirst t (t ++ r) = some ([], r) := by
  rcases ht : t ++ r with _ | ⟨c, cs⟩
  · obtain ⟨h1, h2⟩ := List.append_eq_nil.mp ht
    subst h1; subst h2
    simp [splitFirst, List.isPrefixOf]
  · have hpre : t.isPrefixOf (c :: cs) = true := by
      rw [← ht]
      exact List.isPrefixOf_iff_prefix.mpr ⟨r, rfl⟩
    have hdrop : (c :: cs).drop t.length = r := by
      rw [← ht, List.drop_left]
    rw [← ht]
    simp [splitFirst, ht, hpre, hdrop]

theorem splitFirst_append_left (t s : PyStr) :
    ∀ a : PyStr,
      (∀ a₁ a₂, a = a₁ ++ a₂ → a₂ ≠ [] → ¬ t.isPrefixOf (a₂ ++ s) = true) →
      splitFirst t (a ++ s) = (splitFirst t s).map fun p => (a ++ p.1, p.2)
  | [], _ => by
    cases h : splitFirst t s <;> simp [h]
  | c :: a, h => by
    have hnp : ¬ t.isPrefixOf ((c :: a) ++ s) = true :=
      h [] (c :: a) rfl (List.cons_ne_nil c a)
    have step : splitFirst t ((c :: a) ++ s) =
        (splitFirst t (a ++ s)).map fun p => (c :: p.1, p.2) := by
      simp only [List.cons_append]
      simp only [List.cons_append] at hnp
      simp [splitFirst, hnp]
    rw [step, splitFirst_append_left t s a fun a₁ a₂ ha hne =>
      h (c :: a₁) a₂ (by rw [ha, List.cons_append]) hne]
    cases hs : splitFirst t s <;> simp [hs]

theorem containsSub_append_cases (t x y : PyStr) (h : ContainsSub t (x ++ y)) :
    ContainsSub t x ∨ ContainsSub t y ∨
      ∃ t₁ t₂, t = t₁ ++ t₂ ∧ t₁ ≠ [] ∧ t₂ ≠ [] ∧ t₁ <:+ x ∧ t₂ <+: y := by
  obtain ⟨u, v, huv⟩ := h
  rw [List.append_assoc] at huv
  rcases List.append_eq_append_iff.mp huv with ⟨w, hw1, hw2⟩ | ⟨w, hw1, hw2⟩
  · exact Or.inr (Or.inl ⟨w, v, by simp [hw2, List.append_assoc]⟩)
  · rcases List.append_eq_append_iff.mp hw2 with ⟨z, hz1, hz2⟩ | ⟨z, hz1, hz2⟩
    · exact Or.inl ⟨u, z, by simp [hw1, hz1, List.append_assoc]⟩
    · rcases eq_or_ne w [] with hw | hw
      · subst hw
        simp only [List.nil_append] at hz1
        exact Or.inr (Or.inl ⟨[], v, by simp [hz2, ← hz1]⟩)
      · rcases eq_or_ne z [] with hz | hz
        · subst hz
          simp only [List.append_nil] at hz1
          exact Or.inl ⟨u, [], by simp [hw1, hz1]⟩
        · exact Or.inr (Or.inr ⟨w, z, hz1, hw, hz, ⟨u, hw1.symm⟩, ⟨v, hz2.symm⟩⟩)

theorem containsSub_of_append_left (t u s : PyStr) (h : ContainsSub (t ++ u) s) :
    ContainsSub t s := by
  obtain ⟨a, b, hab⟩ := h
  exact ⟨a, u ++ b, by rw [hab]; simp [List.append_assoc]⟩

theorem containsSub_length (t s : PyStr) (h : ContainsSub t s) : t.length ≤ s.length := by
  obtain ⟨u, v, huv⟩ := h
  have := congrArg List.length huv
  simp only [List.length_append] at this
  omega

theorem wordsAux_tokens (s : PyStr) : ∀ cur : PyStr, (∀ c ∈ cur, isWS c = false) →
    ∀ w ∈ wordsAux s cur, w ≠ [] ∧ ∀ c ∈ w, isWS c = false := by
  induction s with
  | nil =>
    intro cur hcur w hw
    by_cases h : cur = []
    · simp [wordsAux, h] at hw
    · simp [wordsAux, h] at hw
      subst hw
      refine ⟨by simpa using h, fun c hc => hcur c (List.mem_reverse.mp hc)⟩
  | cons c s ih =>
    intro cur hcur w hw
    by_cases hws : isWS c = true
    · by_cases hcur0 : cur = []
      · simp [wordsAux, hws, hcur0] at hw
        exact ih [] (by simp) w hw
      · simp [wordsAux, hws, hcur0] at hw
        rcases hw with hw | hw
        · subst hw
          exact ⟨by simpa using hcur0, fun d hd => hcur d (List.mem_reverse.mp hd)⟩
        · exact ih [] (by simp) w hw
    · simp only [wordsAux, hws, if_false] at hw
      refine ih (c :: cur) ?_ w hw
      intro d hd
      rcases List.mem_cons.mp hd with rfl | hd
      · simpa using hws
      · exact hcur d hd

theorem wordsAux_token_append (t : PyStr) (ht : ∀ c ∈ t, isWS c = false) (r : PyStr) :
    ∀ cur : PyStr, wordsAux (t ++ r) cur = wordsAux r (t.reverse ++ cur) := by
  induction t with
  | nil => intro cur; simp
  | cons c t iht =>
    intro cur
    have hc : isWS c = false := ht c (by simp)
    have ht' : ∀ d ∈ t, isWS d = false := fun d hd => ht d (by simp [hd])
    have step : wordsAux ((c :: t) ++ r) cur = wordsAux (t ++ r) (c :: cur) := by
      simp [wordsAux, hc]
    rw [step, iht ht' (c :: cur)]
    simp [List.append_assoc]

theorem pySplitWs_single (t : PyStr) (htne : t ≠ []) (ht : ∀ c ∈ t, isWS c = false) :
    pySplitWs t = [t] := by
  have h := wordsAux_token_append t ht [] []
  simp only [List.append_nil] at h
  rw [pySplitWs, h, wordsAux]
  simp [htne]

theorem pySplitWs_join (ts : List PyStr)
    (h : ∀ w ∈ ts, w ≠ [] ∧ ∀ c ∈ w, isWS c = false) :
    pySplitWs (joinSp ts) = ts := by
  induction ts with
  | nil => rfl
  | cons t ts ih =>
    obtain ⟨htne, htws⟩ := h t (by simp)
    have hts : ∀ w ∈ ts, w ≠ [] ∧ ∀ c ∈ w, isWS c = false := fun w hw => h w (by simp [hw])
    cases ts with
    | nil => exact pySplitWs_single t htne htws
    | cons t' ts' =>
      have hj : joinSp (t :: t' :: ts') = t ++ ' ' :: joinSp (t' :: ts') := by
        simp [joinSp, pyJoin]
      rw [pySplitWs, hj, wordsAux_token_append t htws]
      have hrne : t.reverse ++ [] ≠ [] := by simpa using htne
      have h2 : wordsAux (' ' :: joinSp (t' :: ts')) (t.reverse ++ []) =
          t :: wordsAux (joinSp (t' :: ts')) [] := by
        simp [wordsAux, hrne, show isWS ' ' = true from rfl, htne]
      rw [h2]
      exact congrArg (t :: ·) (ih hts)

theorem extractKeywords_tokens (alert_content : PyStr) :
    pySplitWs (extractKeywords alert_content) =
      ((pySplitWs (alert_content.map puncToSpace)).filter fun w =>
        !stopWords.contains (pyLower w) && decide (1 < w.length)).take 10 := by
  rw [extractKeywords]
  apply pySplitWs_join
  intro w hw
  have hw' : w ∈ pySplitWs (alert_content.map puncToSpace) :=
    List.mem_of_mem_filter (List.take_subset _ _ hw)
  exact wordsAux_tokens _ [] (by simp) w hw'

/-- C5: intent extraction is a pure function of the alert text (hence the same
alert always yields the same classification and keywords); it returns at most
10 keywords, each a token longer than one character whose lowercase form is
not a stop word; and on the sample alert "CPU usage at 95% on order-service"
it classifies performance, keeps the token CPU, suggests cpu_usage and detects
order-service through the naming-suffix heuristic. -/
theorem intent_extraction_deterministic_bounded :
    (∀ alert_content : PyStr,
      (understandIntent alert_content).keywords.length ≤ 10 ∧
      ∀ w ∈ (understandIntent alert_content).keywords,
        1 < w.length ∧ pyLower w ∉ stopWords) ∧
    (understandIntent sampleAlert).alert_type = "performance" ∧
    "CPU".toList ∈ (understandIntent sampleAlert).keywords ∧
    "cpu_usage" ∈ (understandIntent sampleAlert).suggested_metrics ∧
    (understandIntent sampleAlert).affected_system = some "order-service".toList := by
  refine ⟨?_, by decide, by decide, by decide, by decide⟩
  intro alert_content
  have hkw : (understandIntent alert_content).keywords =
      pySplitWs (extractKeywords alert_content) := rfl
  rw [hkw, extractKeywords_tokens]
  constructor
  · exact List.length_take_le 10 _
  · intro w hw
    have hp := List.of_mem_filter (List.take_subset _ _ hw)
    simp only [Bool.and_eq_true, Bool.not_eq_true', decide_eq_true_eq] at hp
    obtain ⟨h1, h2⟩ := hp
    refine ⟨h2, fun hmem => ?_⟩
    simp at h1
    exact h1 hmem

/-- Witness for the bounded-keyword property at the sample alert. -/
theorem intent_extraction_bounded_witness :
    1 < "CPU".toList.length ∧ pyLower "CPU".toList ∉ stopWords :=
  (intent_extraction_deterministic_bounded.1 sampleAlert).2 "CPU".toList
    intent_extraction_deterministic_bounded.2.2.1

/-- C10: the Intent summary is the alert text itself when it has at most 100
characters and its first 100 characters otherwise, hence always a prefix of
the alert of length at most 100. -/
theorem intent_summary_prefix_bounded (alert_content : PyStr) :
    (understandIntent alert_content).summary =
      (if 100 < alert_content.length then alert_content.take 100 else alert_content) ∧
    (understandIntent alert_content).summary <+: alert_content ∧
    (understandIntent alert_content).summary.length ≤ 100 := by
  have h1 : (understandIntent alert_content).summary =
      (if 100 < alert_content.length then alert_content.take 100 else alert_content) := rfl
  refine ⟨h1, ?_, ?_⟩
  · rw [h1]
    split
    · exact List.take_prefix _ _
    · exact List.prefix_rfl
  · rw [h1]
    split
    · exact List.length_take_le 100 _
    · omega

/-- C7: the request built for the reasoning oracle carries at most 50 formatted
log lines, exactly the first 50 collected entries in order (most recent first
given the newest-first collection order), and at most 20 metric series, each
non-empty series summarized as its last 5 values with their average, maximum
and minimum, whatever the amount of collected telemetry. -/
theorem oracle_request_caps (alert_content : PyStr) (logs : List LogEntry)
    (metrics : List MetricSeries) :
    (buildOracleRequest alert_content logs metrics).log_context.length ≤ 50 ∧
    (buildOracleRequest alert_content logs metrics).log_context =
      (logs.take 50).map formatLogLine ∧
    (buildOracleRequest alert_content logs metrics).metrics_context.length ≤ 20 ∧
    ∀ s ∈ (buildOracleRequest alert_content logs metrics).metrics_context,
      ∃ m ∈ metrics.take 20, m.values ≠ [] ∧
        s.recent = lastN 5 (m.values.map MetricPoint.value) ∧
        s.recent.length ≤ 5 ∧ s.recent ≠ [] ∧
        s.avg = s.recent.sum / (s.recent.length : ℚ) ∧
        s.mx = listMax s.recent ∧ s.mn = listMin s.recent := by
  refine ⟨?_, rfl, ?_, ?_⟩
  · show (formatLogLines logs).length ≤ 50
    rw [formatLogLines, List.length_map]
    exact List.length_take_le 50 logs
  · show (metricSummaries metrics).length ≤ 20
    calc (metricSummaries metrics).length ≤ (metrics.take 20).length :=
          List.length_filterMap_le _ _
      _ ≤ 20 := List.length_take_le 20 metrics
  · intro s hs
    obtain ⟨m, hm, hsome⟩ := List.mem_filterMap.mp hs
    refine ⟨m, hm, ?_⟩
    rw [summarizeMetric] at hsome
    rcases hv : m.values with _ | ⟨p, ps⟩
    · rw [hv] at hsome
      exact absurd hsome (by simp)
    · rw [hv] at hsome
      simp only [Option.some.injEq] at hsome
      have hlen : (p :: ps).length = ps.length + 1 := rfl
      have hrecent : s.recent = lastN 5 ((p :: ps).map MetricPoint.value) := by
        rw [← hsome]
      refine ⟨by simp, hrecent, ?_, ?_, ?_, ?_, ?_⟩
      · rw [hrecent, lastN, List.length_drop, List.length_map]
        omega
      · refine fun hnil => ?_
        rw [hrecent, lastN] at hnil
        have hl := congrArg List.length hnil
        simp only [List.length_drop, List.length_map, hlen, List.length_nil] at hl
        omega
      · rw [← hsome]
      · rw [← hsome]
      · rw [← hsome]

/-- Witness for the metric-summary characterization at a concrete series. -/
theorem oracle_request_caps_witness :
    ∃ m ∈ [(⟨"cpu_usage", [], [⟨"t1", 1⟩, ⟨"t2", 3⟩]⟩ : MetricSeries)].take 20,
      m.values ≠ [] ∧
      (⟨"cpu_usage", [], [1, 3], 2, 3, 1⟩ : MetricSummary).recent =
        lastN 5 (m.values.map MetricPoint.value) ∧
      (⟨"cpu_usage", [], [1, 3], 2, 3, 1⟩ : MetricSummary).recent.length ≤ 5 ∧
      (⟨"cpu_usage", [], [1, 3], 2, 3, 1⟩ : MetricSummary).recent ≠ [] ∧
      (⟨"cpu_usage", [], [1, 3], 2, 3, 1⟩ : MetricSummary).avg =
        (⟨"cpu_usage", [], [1, 3], 2, 3, 1⟩ : MetricSummary).recent.sum /
          ((⟨"cpu_usage", [], [1, 3], 2, 3, 1⟩ : MetricSummary).recent.length : ℚ) ∧
      (⟨"cpu_usage", [], [1, 3], 2, 3, 1⟩ : MetricSummary).mx =
        listMax (⟨"cpu_usage", [], [1, 3], 2, 3, 1⟩ : MetricSummary).recent ∧
      (⟨"cpu_usage", [], [1, 3], 2, 3, 1⟩ : MetricSummary).mn =
        listMin (⟨"cpu_usage", [], [1, 3], 2, 3, 1⟩ : MetricSummary).recent :=
  (oracle_request_caps [] [] [⟨"cpu_usage", [], [⟨"t1", 1⟩, ⟨"t2", 3⟩]⟩]).2.2.2
    ⟨"cpu_usage", [], [1, 3], 2, 3, 1⟩
    (by simp [buildOracleRequest, metricSummaries, summarizeMetric, lastN, listMax, listMin]
        norm_num)

/-- C3: the Reasoning Client is total -- analyze_alert always returns a
Verdict, never propagating an exception. With an empty API key it returns the
zero-confidence mock verdict (category config_issue); on transport failure it
returns the zero-confidence error verdict; when the oracle text does not
decode as JSON it returns the 0.3-confidence code_issue verdict carrying the
de-fenced raw text (truncated to 500 characters, as in the source) as root
cause; a decode to a non-dict JSON value is caught by the outer handler and
also yields the zero-confidence error verdict. -/
theorem llm_total_fallback (env : LLMEnv) (alert_content : PyStr) (logs : List LogEntry)
    (metrics : List MetricSeries) :
    (∃ v, analyzeAlert env alert_content logs metrics = some v) ∧
    (env.apiKeyEmpty = true →
      (analyzeWithOpenai env alert_content logs metrics).confidence = some 0 ∧
      (analyzeWithOpenai env alert_content logs metrics).category = "config_issue") ∧
    (∀ e, env.apiKeyEmpty = false → env.transport = .error e →
      analyzeWithOpenai env alert_content logs metrics = llmErrorResult e ∧
      (llmErrorResult e).confidence = some 0) ∧
    (∀ content, env.apiKeyEmpty = false → env.transport = .ok content →
      env.decode (pyStrip (stripCodeFence content)) = .badJson →
      (analyzeWithOpenai env alert_content logs metrics).confidence = some (3/10) ∧
      (analyzeWithOpenai env alert_content logs metrics).category = "code_issue" ∧
      (analyzeWithOpenai env alert_content logs metrics).root_cause =
        String.mk ((stripCodeFence content).take 500)) ∧
    (∀ e content, env.apiKeyEmpty = false → env.transport = .ok content →
      env.decode (pyStrip (stripCodeFence content)) = .nonDict e →
      analyzeWithOpenai env alert_content logs metrics = llmErrorResult e) := by
  refine ⟨⟨analyzeWithOpenai env alert_content logs metrics, rfl⟩, ?_, ?_, ?_, ?_⟩
  · intro h
    simp [analyzeWithOpenai, h]
  · intro e h1 h2
    simp [analyzeWithOpenai, h1, h2, llmErrorResult]
  · intro content h1 h2 h3
    simp [analyzeWithOpenai, h1, h2, parseOracleContent, h3]
  · intro e content h1 h2 h3
    simp [analyzeWithOpenai, h1, h2, parseOracleContent, h3]

/-- Witness for the Reasoning Client fallback paths: with an empty API key the
verdict has confidence zero and category config_issue. -/
theorem llm_total_fallback_witness :
    (analyzeWithOpenai ⟨true, .error "no net", fun _ => .badJson⟩ [] [] []).confidence =
      some 0 ∧
    (analyzeWithOpenai ⟨true, .error "no net", fun _ => .badJson⟩ [] [] []).category =
      "config_issue" :=
  (llm_total_fallback ⟨true, .error "no net", fun _ => .badJson⟩ [] [] []).2.1 rfl

/-- C6 counterexample: nothing constrains a successfully decoded verdict, so an
oracle reply whose JSON carries category weird_category and confidence 2 is
passed through verbatim -- outside the documented closed category set and the
[0,1] confidence interval. -/
theorem verdict_category_unbounded_cex :
    (analyzeWithOpenai llmEnvCex [] [] []).category = "weird_category" ∧
    "weird_category" ∉ verdictCategories ∧
    (analyzeWithOpenai llmEnvCex [] [] []).confidence = some 2 ∧
    ¬ ((2 : ℚ) ≤ 1) := by
  refine ⟨rfl, by decide, rfl, by norm_num⟩

theorem parseOracleContent_bounds (decode : PyStr → DecodeResult)
    (hd : DecoderBounded decode) (content : PyStr) (r : AnalysisResult)
    (hr : parseOracleContent decode content = .ok r) :
    r.category ∈ verdictCategories ∧ ∃ q, r.confidence = some q ∧ 0 ≤ q ∧ q ≤ 1 := by
  simp only [parseOracleContent] at hr
  cases hdc : decode (pyStrip (stripCodeFence content)) with
  | badJson =>
    rw [hdc] at hr
    simp only [Except.ok.injEq] at hr
    subst hr
    exact ⟨show "code_issue" ∈ verdictCategories by decide, 3/10, rfl, by norm_num, by norm_num⟩
  | nonDict e =>
    rw [hdc] at hr
    simp at hr
  | obj o =>
    rw [hdc] at hr
    simp only [Except.ok.injEq] at hr
    subst hr
    obtain ⟨hcat, hconf⟩ := hd _ o hdc
    constructor
    · cases ho : o.category with
      | none => simp [ho]; decide
      | some c => simpa [ho] using hcat c ho
    · cases hc : o.confidence with
      | none => exact ⟨1/2, by simp [hc], by norm_num, by norm_num⟩
      | some q => exact ⟨q, by simp [hc], (hconf q hc).1, (hconf q hc).2⟩

/-- C6 amended: every Verdict built on a fallback path has category in the
closed set and confidence in [0,1]; and whenever the decoded oracle objects
themselves respect the documented bounds (or omit the fields, in which case
the defaults code_issue and 0.5 apply), so does every produced Verdict. -/
theorem verdict_category_confidence_bounded (env : LLMEnv)
    (hd : DecoderBounded env.decode) (alert_content : PyStr) (logs : List LogEntry)
    (metrics : List MetricSeries) :
    (analyzeWithOpenai env alert_content logs metrics).category ∈ verdictCategories ∧
    ∃ q, (analyzeWithOpenai env alert_content logs metrics).confidence = some q ∧
      0 ≤ q ∧ q ≤ 1 := by
  obtain ⟨key, transport, decode⟩ := env
  cases key with
  | true => exact ⟨show "config_issue" ∈ verdictCategories by decide, 0, rfl, le_refl 0, by norm_num⟩
  | false =>
    cases transport with
    | error e =>
      exact ⟨show "code_issue" ∈ verdictCategories by decide, 0, rfl, le_refl 0, by norm_num⟩
    | ok content =>
      have hred : analyzeWithOpenai ⟨false, .ok content, decode⟩ alert_content logs metrics =
          (match parseOracleContent decode content with
           | .ok r => r
           | .error e => llmErrorResult e) := rfl
      rw [hred]
      cases hp : parseOracleContent decode content with
      | ok r => exact parseOracleContent_bounds decode hd content r hp
      | error e =>
      exact ⟨show "code_issue" ∈ verdictCategories by decide, 0, rfl, le_refl 0, by norm_num⟩

/-- Witness for the amended category/confidence bound with a decoder that
never returns an object. -/
theorem verdict_category_confidence_bounded_witness :
    (analyzeWithOpenai ⟨false, .ok "not json".toList, fun _ => .badJson⟩ [] [] []).category ∈
      verdictCategories ∧
    ∃ q, (analyzeWithOpenai ⟨false, .ok "not json".toList, fun _ => .badJson⟩
        [] [] []).confidence = some q ∧ 0 ≤ q ∧ q ≤ 1 :=
  verdict_category_confidence_bounded ⟨false, .ok "not json".toList, fun _ => .badJson⟩
    (fun _ o h => by cases h) [] [] []

theorem prefix_singleton_eq {t : PyStr} {c : Char} (h : t <+: [c]) (hne : t ≠ []) :
    t = [c] := by
  obtain ⟨w, hw⟩ := h
  cases t with
  | nil => exact absurd rfl hne
  | cons d t' =>
    injection hw with h1 h2
    obtain ⟨h3, h4⟩ := List.append_eq_nil.mp h2
    rw [h1, h3]

theorem not_isPrefixOf_of_eq_false {t s : PyStr} (h : t.isPrefixOf s = false) :
    ¬ t.isPrefixOf s = true := by simp [h]

theorem notContains_ticks_mid (B : PyStr) (hB : ¬ ContainsSub ticks B) :
    ¬ ContainsSub ticks (('\n' :: B) ++ ['\n']) := by
  rw [List.cons_append]
  intro h
  rcases (containsSub_cons_iff ticks '\n' (B ++ ['\n'])).mp h with hp | h
  · exact not_isPrefixOf_of_eq_false (by rfl) hp
  · rcases containsSub_append_cases ticks B ['\n'] h with h | h | ⟨t₁, t₂, heq, h1, h2, hs, hpr⟩
    · exact hB h
    · have := containsSub_length _ _ h
      simp [ticks] at this
    · have ht2 : t₂ = ['\n'] := prefix_singleton_eq hpr h2
      have : ('\n' : Char) ∈ ticks := by
        rw [heq, ht2]
        exact List.mem_append_right _ (by simp)
      exact absurd this (by decide)

theorem notContains_jsonFence_tail (B : PyStr) (hB : ¬ ContainsSub ticks B) :
    ¬ ContainsSub jsonFence (B ++ ('\n' :: ticks)) := by
  intro h
  rcases containsSub_append_cases jsonFence B ('\n' :: ticks) h
    with h | h | ⟨t₁, t₂, heq, h1, h2, hs, hpr⟩
  · exact hB (containsSub_of_append_left ticks ['j', 's', 'o', 'n'] B h)
  · have := containsSub_length _ _ h
    simp [ticks, jsonFence] at this
  · have hn : ('\n' : Char) ∈ jsonFence := by
      obtain ⟨w, hw⟩ := hpr
      cases t₂ with
      | nil => exact absurd rfl h2
      | cons d t₂' =>
        injection hw with hw1 hw2
        rw [heq, hw1]
        exact List.mem_append_right _ (by simp)
    exact absurd hn (by decide)

theorem notContains_jsonFence_rest (B : PyStr) (hB : ¬ ContainsSub ticks B) :
    ¬ ContainsSub jsonFence (('\n' :: B) ++ ('\n' :: ticks)) := by
  rw [List.cons_append]
  intro h
  rcases (containsSub_cons_iff jsonFence '\n' (B ++ ('\n' :: ticks))).mp h with hp | h
  · exact not_isPrefixOf_of_eq_false (by rfl) hp
  · exact notContains_jsonFence_tail B hB h

theorem notContains_jsonFence_wrapPlain (B : PyStr) (hB : ¬ ContainsSub ticks B) :
    ¬ ContainsSub jsonFence (wrapPlainFence B) := by
  intro h
  have hW : wrapPlainFence B = '`' :: '`' :: '`' :: (('\n' :: B) ++ ('\n' :: ticks)) := by
    simp [wrapPlainFence, ticks]
  rw [hW] at h
  rcases (containsSub_cons_iff _ _ _).mp h with hp | h
  · exact not_isPrefixOf_of_eq_false (by rfl) hp
  rcases (containsSub_cons_iff _ _ _).mp h with hp | h
  · exact not_isPrefixOf_of_eq_false (by rfl) hp
  rcases (containsSub_cons_iff _ _ _).mp h with hp | h
  · exact not_isPrefixOf_of_eq_false (by rfl) hp
  exact notContains_jsonFence_rest B hB h

theorem splitFirst_ticks_sentinel (B : PyStr) (hB : ¬ ContainsSub ticks B) :
    splitFirst ticks ((('\n' :: B) ++ ['\n']) ++ ticks) = some (('\n' :: B) ++ ['\n'], []) := by
  have hmid := notContains_ticks_mid B hB
  have hcond : ∀ a₁ a₂, ('\n' :: B) ++ ['\n'] = a₁ ++ a₂ → a₂ ≠ [] →
      ¬ ticks.isPrefixOf (a₂ ++ ticks) = true := by
    intro a₁ a₂ hsplit hne hpre
    have h1 : (('\n' :: B) ++ ['\n']).getLast? = some '\n' := by
      rw [List.getLast?_append_of_ne_nil _ (by simp)]
      rfl
    rw [hsplit, List.getLast?_append_of_ne_nil _ hne] at h1
    obtain ⟨w, hw⟩ := List.isPrefixOf_iff_prefix.mp hpre
    rcases a₂ with _ | ⟨c1, _ | ⟨c2, _ | ⟨c3, r⟩⟩⟩
    · exact hne rfl
    · simp only [List.getLast?_singleton, Option.some.injEq] at h1
      subst h1
      simp only [ticks, List.cons_append, List.nil_append] at hw
      injection hw with hc hw
      exact absurd hc (by decide)
    · have hc2 : c2 = '\n' := by simpa using h1
      subst hc2
      simp only [ticks, List.cons_append, List.nil_append] at hw
      injection hw with hc hw
      injection hw with hc2' hw
      exact absurd hc2' (by decide)
    · simp only [ticks, List.cons_append, List.nil_append] at hw
      injection hw with e1 hw
      injection hw with e2 hw
      injection hw with e3 hw
      refine hmid ⟨a₁, r, ?_⟩
      rw [hsplit]
      simp [ticks, ← e1, ← e2, ← e3]
  have h := splitFirst_append_left ticks ticks (('\n' :: B) ++ ['\n']) hcond
  rw [h]
  have h2 : splitFirst ticks ticks = some ([], []) := by
    have h3 := splitFirst_prefix ticks []
    simpa using h3
  rw [h2]
  simp

theorem stripCodeFence_wrapJson (B : PyStr) (hB : ¬ ContainsSub ticks B) :
    stripCodeFence (wrapJsonFence B) = ('\n' :: B) ++ ['\n'] := by
  have hW : wrapJsonFence B = jsonFence ++ (('\n' :: B) ++ ('\n' :: ticks)) := by
    simp [wrapJsonFence]
  have h1 : splitFirst jsonFence (wrapJsonFence B) =
      some ([], ('\n' :: B) ++ ('\n' :: ticks)) := by
    rw [hW]; exact splitFirst_prefix _ _
  have h2 : splitFirst jsonFence (('\n' :: B) ++ ('\n' :: ticks)) = none :=
    (splitFirst_none_iff jsonFence (by decide) _).mpr (notContains_jsonFence_rest B hB)
  have h3 : splitFirst ticks (('\n' :: B) ++ ('\n' :: ticks)) =
      some (('\n' :: B) ++ ['\n'], []) := by
    have := splitFirst_ticks_sentinel B hB
    simpa [List.append_assoc] using this
  rw [stripCodeFence]
  rw [if_pos (by simp [pyContains, h1])]
  simp only [pySplitGet1, h1, splitHead, h2, h3]

theorem stripCodeFence_wrapPlain (B : PyStr) (hB : ¬ ContainsSub ticks B) :
    stripCodeFence (wrapPlainFence B) = ('\n' :: B) ++ ['\n'] := by
  have hW : wrapPlainFence B = ticks ++ (('\n' :: B) ++ ('\n' :: ticks)) := by
    simp [wrapPlainFence]
  have h0 : splitFirst jsonFence (wrapPlainFence B) = none :=
    (splitFirst_none_iff jsonFence (by decide) _).mpr (notContains_jsonFence_wrapPlain B hB)
  have h1 : splitFirst ticks (wrapPlainFence B) =
      some ([], ('\n' :: B) ++ ('\n' :: ticks)) := by
    rw [hW]; exact splitFirst_prefix _ _
  have h3 : splitFirst ticks (('\n' :: B) ++ ('\n' :: ticks)) =
      some (('\n' :: B) ++ ['\n'], []) := by
    have := splitFirst_ticks_sentinel B hB
    simpa [List.append_assoc] using this
  have h4 : splitFirst ticks (('\n' :: B) ++ ['\n']) = none :=
    (splitFirst_none_iff ticks (by decide) _).mpr (notContains_ticks_mid B hB)
  rw [stripCodeFence]
  rw [if_neg (by simp [pyContains, h0])]
  rw [if_pos (by simp [pyContains, h1])]
  simp only [pySplitGet1, h1, splitHead, h3, h4]

theorem stripCodeFence_plain (B : PyStr) (hB : splitFirst ticks B = none) :
    stripCodeFence B = B := by
  have hB' : ¬ ContainsSub ticks B := (splitFirst_none_iff ticks (by decide) B).mp hB
  have h0 : splitFirst jsonFence B = none := by
    refine (splitFirst_none_iff jsonFence (by decide) B).mpr fun h => ?_
    exact hB' (containsSub_of_append_left ticks ['j', 's', 'o', 'n'] B h)
  rw [stripCodeFence]
  rw [if_neg (by simp [pyContains, h0])]
  rw [if_neg (by simp [pyContains, hB])]

theorem pyStrip_cons_ws (c : Char) (h : isWS c = true) (s : PyStr) :
    pyStrip (c :: s) = pyStrip s := by
  simp [pyStrip, List.dropWhile_cons, h]

theorem pyStrip_concat_ws (c : Char) (h : isWS c = true) (s : PyStr) :
    pyStrip (s ++ [c]) = pyStrip s := by
  rw [pyStrip, pyStrip]
  by_cases hs : s.dropWhile isWS = []
  · rw [List.dropWhile_append, hs]
    simp [List.dropWhile_cons, h, hs]
  · rw [List.dropWhile_append]
    have hie : (List.dropWhile isWS s).isEmpty = false := by
      simpa [List.isEmpty_iff] using hs
    simp only [hie, Bool.false_eq_true, if_false]
    simp [List.reverse_append, List.dropWhile_cons, h]

theorem pyStrip_mid (B : PyStr) : pyStrip (('\n' :: B) ++ ['\n']) = pyStrip B := by
  rw [List.cons_append, pyStrip_cons_ws '\n' rfl, pyStrip_concat_ws '\n' rfl]

/-- C9 counterexample: a JSON body that decodes to a verdict object but
contains a triple backtick inside a string literal parses differently wrapped
and unwrapped -- the fence-stripping code splits at the inner backticks, so
neither variant decodes and even the two fallback verdicts disagree. -/
theorem fence_parse_not_identical_cex :
    decodeCex (pyStrip fenceInsideBody) = .obj fenceInsideObj ∧
    (parseOracleContent decodeCex (wrapJsonFence fenceInsideBody)).toOption ≠
      (parseOracleContent decodeCex fenceInsideBody).toOption := by
  constructor
  · decide
  · decide

/-- C9 amended: for every JSON text containing no triple-backtick fence marker
that decodes to a verdict object, the oracle reply wrapped in a markdown code
fence (json-tagged or plain) parses to exactly the same Verdict, field for
field, as the unwrapped text. -/
theorem fence_parse_identical (decode : PyStr → DecodeResult) (B : PyStr)
    (hB : splitFirst ticks B = none) (o : VerdictJson)
    (hdec : decode (pyStrip B) = .obj o) :
    parseOracleContent decode (wrapJsonFence B) = parseOracleContent decode B ∧
    parseOracleContent decode (wrapPlainFence B) = parseOracleContent decode B := by
  have hB' : ¬ ContainsSub ticks B := (splitFirst_none_iff ticks (by decide) B).mp hB
  have h1 := stripCodeFence_wrapJson B hB'
  have h2 := stripCodeFence_wrapPlain B hB'
  have h3 := stripCodeFence_plain B hB
  constructor
  · simp only [parseOracleContent, h1, h3, pyStrip_mid, hdec]
  · simp only [parseOracleContent, h2, h3, pyStrip_mid, hdec]

/-- Witness for the amended fence-transparency property at a concrete
fence-free body and a decoder that accepts it. -/
theorem fence_parse_identical_witness :
    parseOracleContent
        (fun s => if s = "verdict body".toList then .obj fenceInsideObj else .badJson)
        (wrapJsonFence "verdict body".toList) =
      parseOracleContent
        (fun s => if s = "verdict body".toList then .obj fenceInsideObj else .badJson)
        "verdict body".toList ∧
    parseOracleContent
        (fun s => if s = "verdict body".toList then .obj fenceInsideObj else .badJson)
        (wrapPlainFence "verdict body".toList) =
      parseOracleContent
        (fun s => if s = "verdict body".toList then .obj fenceInsideObj else .badJson)
        "verdict body".toList :=
  fence_parse_identical _ "verdict body".toList (by decide) fenceInsideObj (by decide)

/-- C8: whatever the environment does -- normal completion, cancellation at
any check, or a commit failure unwinding through the handler -- the finally
block of stream_analysis discards the session id from both the active set and
the cancelled set, so no run leaves a stale registry entry. -/
theorem registry_cleared_on_exit (env : StreamEnv) (sess : Session)
    (request : AnalysisRequest) (reg : Registry) :
    sess.id ∉ (streamAnalysis env sess request reg).reg.active ∧
    sess.id ∉ (streamAnalysis env sess request reg).reg.cancelled :=
  ⟨Finset.not_mem_erase _ _, Finset.not_mem_erase _ _⟩

theorem cleanEvs_nil : CleanEvs [] := by simp [CleanEvs]

theorem cleanEvs_append_one {d : List StreamEvent} (hd : CleanEvs d) {e : StreamEvent}
    (he : e.event ≠ EvKind.cancelled ∧ e.event ≠ EvKind.done) : CleanEvs (d ++ [e]) := by
  intro x hx
  rcases List.mem_append.mp hx with hx | hx
  · exact hd x hx
  · simp only [List.mem_singleton] at hx
    subst hx
    exact he

theorem emitResultMessages_clean (r : AnalysisResult) (st : RunSt)
    (hclean : CleanEvs st.events) : CleanEvs (emitResultMessages r st).events := by
  simp only [emitResultMessages, emitEv, addMsg]
  repeat apply cleanEvs_append_one
  all_goals first | exact hclean | simp [evMessage]

theorem finishStage3_cases (env : StreamEnv) (st : RunSt) (hclean : CleanEvs st.events) :
    (∃ st' v, finishStage3 env st = .cont st' v ∧
      ∃ p, st'.events = p ++ [evDone "分析完成"] ∧ CleanEvs p) ∨
    (∃ st' m, finishStage3 env st = .fail st' m ∧ CleanEvs st'.events) := by
  rw [finishStage3]
  simp only [commitR, emitEv, addMsg, statusSet]
  cases hf1 : env.commitFail st.fc with
  | some m => exact Or.inr ⟨_, m, rfl, hclean⟩
  | none =>
  try dsimp only
  cases hf2 : env.commitFail (st.fc + 1) with
  | some m =>
    refine Or.inr ⟨_, m, rfl, ?_⟩
    repeat apply cleanEvs_append_one
    all_goals first | exact hclean | simp [evComplete]
  | none =>
  try dsimp only
  cases hf3 : env.commitFail (st.fc + 1 + 1) with
  | some m =>
    refine Or.inr ⟨_, m, rfl, ?_⟩
    repeat apply cleanEvs_append_one
    all_goals first | exact hclean | simp [evComplete]
  | none =>
  try dsimp only
  refine Or.inl ⟨_, (), rfl, _, rfl, ?_⟩
  repeat apply cleanEvs_append_one
  all_goals first | exact hclean | simp [evComplete]

theorem stage3Run_cases (env : StreamEnv) (request : AnalysisRequest)
    (context : ContextData) (st : RunSt) (hclean : CleanEvs st.events) :
    (∃ st' v, stage3Run env request context st = .cont st' v ∧
      ∃ p, st'.events = p ++ [evDone "分析完成"] ∧ CleanEvs p) ∨
    (∃ st', stage3Run env request context st = .halt st' ∧
      ∃ p, st'.events = p ++ [evCancelled] ∧ CleanEvs p) ∨
    (∃ st' m, stage3Run env request context st = .fail st' m ∧ CleanEvs st'.events) := by
  rw [stage3Run]
  simp only [checkCancelB, commitR, emitEv, addMsg, statusSet]
  cases hc1 : env.cancel st.cc with
  | true =>
    simp only [eq_self_iff_true, if_true]
    try dsimp only
    right; left
    exact ⟨_, rfl, _, rfl, hclean⟩
  | false =>
  simp only [Bool.false_eq_true, if_false]
  try dsimp only
  cases hf1 : env.commitFail st.fc with
  | some m =>
    right; right
    refine ⟨_, m, rfl, ?_⟩
    repeat apply cleanEvs_append_one
    all_goals first | exact hclean | simp [evStart]
  | none =>
  try dsimp only
  cases hf2 : env.commitFail (st.fc + 1) with
  | some m =>
    right; right
    refine ⟨_, m, rfl, ?_⟩
    repeat apply cleanEvs_append_one
    all_goals first | exact hclean | simp [evStart]
  | none =>
  try dsimp only
  cases hc2 : env.cancel (st.cc + 1) with
  | true =>
    simp only [eq_self_iff_true, if_true]
    try dsimp only
    right; left
    refine ⟨_, rfl, _, rfl, ?_⟩
    repeat apply cleanEvs_append_one
    all_goals first | exact hclean | simp [evStart, evProgress]
  | false =>
  simp only [Bool.false_eq_true, if_false]
  try dsimp only
  simp only [analyzeAlert]
  have hclean2 : CleanEvs (emitResultMessages
      (analyzeWithOpenai env.llm request.alert_content context.logs context.metrics)
      { events := st.events ++ [evStart "llm_analysis" "🤖 正在调用大模型进行分析..."] ++
          [evProgress "llm_analysis" "大模型正在思考中..." (some 30)]
        sess := { st.sess with
          status := "llm_analysis"
          current_stage := some "llm_analysis"
          messages := st.sess.messages ++
            [{ role := "assistant", content := "🤖 正在分析告警原因，请稍候...", stage := some "llm_analysis" }] }
        cc := st.cc + 1 + 1
        fc := st.fc + 1 + 1 }).events := by
    apply emitResultMessages_clean
    repeat apply cleanEvs_append_one
    all_goals first | exact hclean | simp [evStart, evProgress]
  rcases finishStage3_cases env _ hclean2 with ⟨st', v, heq, hp⟩ | ⟨st', m, heq, hp⟩
  · left
    exact ⟨st', v, heq, hp⟩
  · right; right
    exact ⟨st', m, heq, hp⟩

theorem collectLoop_shape (env : StreamEnv) (keywords : PyStr) (total_ds : Nat)
    (dss : List DataSource) (i : Nat) (st : RunSt) (context : ContextData)
    (hclean : CleanEvs st.events) :
    (∀ st' c, collectLoop env keywords total_ds dss i st context = .cont st' c →
      CleanEvs st'.events) ∧
    (∀ st', collectLoop env keywords total_ds dss i st context = .halt st' →
      ∃ p, st'.events = p ++ [evCancelled] ∧ CleanEvs p) ∧
    (∀ st' m, collectLoop env keywords total_ds dss i st context = .fail st' m →
      CleanEvs st'.events) := by
  induction dss generalizing i st context with
  | nil =>
    refine ⟨?_, ?_, ?_⟩
    · intro st' c h
      simp only [collectLoop] at h
      injection h with h1 h2
      subst h1
      exact hclean
    · intro st' h
      simp only [collectLoop] at h
      exact absurd h (by simp)
    · intro st' m h
      simp only [collectLoop] at h
      exact absurd h (by simp)
  | cons ds rest ih =>
    by_cases hcan : env.cancel st.cc = true
    · refine ⟨?_, ?_, ?_⟩
      · intro st' c h
        simp [collectLoop, checkCancelB, hcan] at h
      · intro st' h
        simp only [collectLoop, checkCancelB, hcan, if_true] at h
        injection h with h1
        subst h1
        exact ⟨st.events, by simp [emitEv], hclean⟩
      · intro st' m h
        simp [collectLoop, checkCancelB, hcan] at h
    · have hfalse : env.cancel st.cc = false := by simpa using hcan
      cases hcf : env.commitFail st.fc with
      | some m0 =>
        refine ⟨?_, ?_, ?_⟩
        · intro st' c h
          simp [collectLoop, checkCancelB, hfalse, commitR, addMsg, emitEv, hcf] at h
        · intro st' h
          simp [collectLoop, checkCancelB, hfalse, commitR, addMsg, emitEv, hcf] at h
        · intro st' m h
          simp only [collectLoop, checkCancelB, hfalse, Bool.false_eq_true, if_false,
            commitR, addMsg, emitEv, hcf] at h
          injection h with h1 h2
          subst h1
          exact cleanEvs_append_one hclean (by simp [evProgress])
      | none =>
        have hstep : ∀ x,
            collectLoop env keywords total_ds (ds :: rest) i st context = x →
            collectLoop env keywords total_ds rest (i + 1)
              { st with
                cc := st.cc + 1
                events := st.events ++ [evProgress "data_collection"
                  ("正在查询数据源: " ++ ds.name) (some ((i * 100) / total_ds))]
                fc := st.fc + 1
                sess := { st.sess with messages := st.sess.messages ++
                  [{ role := "assistant"
                     content := "📥 从 **" ++ ds.name ++ "** 收集到 " ++
                       dictGet (dsKey ds) "0 条数据"
                         (collectFromDatasource env.collect ds keywords context).collection_status
                     stage := some "data_collection" }] } }
              (collectFromDatasource env.collect ds keywords context) = x := by
          intro x h
          simp only [collectLoop, checkCancelB, hfalse, Bool.false_eq_true, if_false,
            commitR, addMsg, emitEv, hcf] at h
          exact h
        have hclean' : CleanEvs (st.events ++ [evProgress "data_collection"
            ("正在查询数据源: " ++ ds.name) (some ((i * 100) / total_ds))]) :=
          cleanEvs_append_one hclean (by simp [evProgress])
        refine ⟨?_, ?_, ?_⟩
        · intro st' c h
          exact (ih (i + 1) _ _ hclean').1 st' c (hstep _ h)
        · intro st' h
          exact (ih (i + 1) _ _ hclean').2.1 st' (hstep _ h)
        · intro st' m h
          exact (ih (i + 1) _ _ hclean').2.2 st' m (hstep _ h)

theorem stage2Collect_shape (env : StreamEnv) (intent : IntentResult)
    (request : AnalysisRequest) (st : RunSt) (hclean : CleanEvs st.events) :
    (∀ st' c, stage2Collect env intent request st = .cont st' c → CleanEvs st'.events) ∧
    (∀ st', stage2Collect env intent request st = .halt st' →
      ∃ p, st'.events = p ++ [evCancelled] ∧ CleanEvs p) ∧
    (∀ st' m, stage2Collect env intent request st = .fail st' m → CleanEvs st'.events) := by
  by_cases hds : env.datasources.isEmpty = true
  · refine ⟨?_, ?_, ?_⟩
    · intro st' c h
      simp only [stage2Collect, hds, if_true, addMsg, emitEv] at h
      injection h with h1 h2
      subst h1
      exact cleanEvs_append_one hclean (by simp [evProgress])
    · intro st' h
      simp [stage2Collect, hds, addMsg, emitEv] at h
    · intro st' m h
      simp [stage2Collect, hds, addMsg, emitEv] at h
  · have hds' : env.datasources.isEmpty = false := by simpa using hds
    have hred : stage2Collect env intent request st =
        collectLoop env
          (if !intent.keywords.isEmpty then joinSp intent.keywords
           else extractKeywords request.alert_content)
          env.datasources.length env.datasources 0 st {} := by
      simp only [stage2Collect, hds', Bool.false_eq_true, if_false]
    rw [hred]
    exact collectLoop_shape env _ _ env.datasources 0 st {} hclean

theorem stage2Run_cases (env : StreamEnv) (request : AnalysisRequest)
    (intent : IntentResult) (st : RunSt) (hclean : CleanEvs st.events) :
    (∃ st' c, stage2Run env request intent st = .cont st' c ∧ CleanEvs st'.events) ∨
    (∃ st', stage2Run env request intent st = .halt st' ∧
      ∃ p, st'.events = p ++ [evCancelled] ∧ CleanEvs p) ∨
    (∃ st' m, stage2Run env request intent st = .fail st' m ∧ CleanEvs st'.events) := by
  rw [stage2Run]
  simp only [checkCancelB, commitR, emitEv, addMsg, statusSet]
  cases hc1 : env.cancel st.cc with
  | true =>
    simp only [eq_self_iff_true, if_true]
    try dsimp only
    right; left
    exact ⟨_, rfl, _, rfl, hclean⟩
  | false =>
  simp only [Bool.false_eq_true, if_false]
  try dsimp only
  cases hf1 : env.commitFail st.fc with
  | some m =>
    right; right
    refine ⟨_, m, rfl, ?_⟩
    exact cleanEvs_append_one hclean (by simp [evStart])
  | none =>
  try dsimp only
  have hclean1 : CleanEvs (st.events ++ [evStart "data_collection" "📊 正在收集相关数据..."]) :=
    cleanEvs_append_one hclean (by simp [evStart])
  rcases stage2Collect_shape env intent request
      { events := st.events ++ [evStart "data_collection" "📊 正在收集相关数据..."]
        sess := { st.sess with
          status := "data_collection"
          current_stage := some "data_collection" }
        cc := st.cc + 1
        fc := st.fc + 1 } hclean1 with ⟨hcont, hhalt, hfail⟩
  cases h2 : stage2Collect env intent request
      { events := st.events ++ [evStart "data_collection" "📊 正在收集相关数据..."]
        sess := { st.sess with
          status := "data_collection"
          current_stage := some "data_collection" }
        cc := st.cc + 1
        fc := st.fc + 1 } with
  | halt st2 =>
    right; left
    exact ⟨st2, rfl, hhalt st2 h2⟩
  | fail st2 m =>
    right; right
    exact ⟨st2, m, rfl, hfail st2 m h2⟩
  | cont st2 context =>
    have hclean2 : CleanEvs st2.events := hcont st2 context h2
    try dsimp only
    cases hf2 : env.commitFail st2.fc with
    | some m =>
      right; right
      exact ⟨_, m, rfl, hclean2⟩
    | none =>
      try dsimp only
      left
      refine ⟨_, context, rfl, ?_⟩
      exact cleanEvs_append_one hclean2 (by simp [evComplete])

theorem stage23Run_cases (env : StreamEnv) (request : AnalysisRequest)
    (intent : IntentResult) (st : RunSt) (hclean : CleanEvs st.events) :
    (∃ st' v, stage23Run env request intent st = .cont st' v ∧
      ∃ p, st'.events = p ++ [evDone "分析完成"] ∧ CleanEvs p) ∨
    (∃ st', stage23Run env request intent st = .halt st' ∧
      ∃ p, st'.events = p ++ [evCancelled] ∧ CleanEvs p) ∨
    (∃ st' m, stage23Run env request intent st = .fail st' m ∧ CleanEvs st'.events) := by
  rw [stage23Run]
  rcases stage2Run_cases env request intent st hclean with
    ⟨st2, c, heq, hcl2⟩ | ⟨st2, heq, hp⟩ | ⟨st2, m, heq, hcl2⟩
  · rw [heq]
    try dsimp only
    exact stage3Run_cases env request c st2 hcl2
  · rw [heq]
    try dsimp only
    right; left
    exact ⟨st2, rfl, hp⟩
  · rw [heq]
    try dsimp only
    right; right
    exact ⟨st2, m, rfl, hcl2⟩

theorem pipelineBody_cases (env : StreamEnv) (request : AnalysisRequest) (st0 : RunSt)
    (hclean : CleanEvs st0.events) :
    (∃ st' v, pipelineBody env request st0 = .cont st' v ∧
      ∃ p, st'.events = p ++ [evDone "分析完成"] ∧ CleanEvs p) ∨
    (∃ st', pipelineBody env request st0 = .halt st' ∧
      ∃ p, st'.events = p ++ [evCancelled] ∧ CleanEvs p) ∨
    (∃ st' m, pipelineBody env request st0 = .fail st' m ∧ CleanEvs st'.events) := by
  rw [pipelineBody]
  simp only [checkCancelB, commitR, emitEv, addMsg, statusSet]
  cases hf1 : env.commitFail st0.fc with
  | some m =>
    right; right
    refine ⟨_, m, rfl, ?_⟩
    exact cleanEvs_append_one hclean (by simp [evStart])
  | none =>
  try dsimp only
  cases hc1 : env.cancel st0.cc with
  | true =>
    simp only [eq_self_iff_true, if_true]
    try dsimp only
    right; left
    refine ⟨_, rfl, _, rfl, ?_⟩
    exact cleanEvs_append_one hclean (by simp [evStart])
  | false =>
  simp only [Bool.false_eq_true, if_false]
  try dsimp only
  cases hsys : (understandIntent request.alert_content).affected_system with
  | some sys =>
    try dsimp only
    cases hf2 : env.commitFail (st0.fc + 1) with
    | some m =>
      right; right
      refine ⟨_, m, rfl, ?_⟩
      exact cleanEvs_append_one hclean (by simp [evStart])
    | none =>
      try dsimp only
      refine stage23Run_cases env request _ _ ?_
      repeat apply cleanEvs_append_one
      all_goals first | exact hclean | simp [evStart, evProgress, evComplete]
  | none =>
    try dsimp only
    cases hf2 : env.commitFail (st0.fc + 1) with
    | some m =>
      right; right
      refine ⟨_, m, rfl, ?_⟩
      exact cleanEvs_append_one hclean (by simp [evStart])
    | none =>
      try dsimp only
      refine stage23Run_cases env request _ _ ?_
      repeat apply cleanEvs_append_one
      all_goals first | exact hclean | simp [evStart, evProgress, evComplete]

theorem runPipeline_shape (env : StreamEnv) (request : AnalysisRequest) (sess : Session) :
    (∃ p, (runPipeline env request sess).1 = p ++ [evDone "分析完成"] ∧ CleanEvs p) ∨
    (∃ p, (runPipeline env request sess).1 = p ++ [evCancelled] ∧ CleanEvs p) ∨
    (∃ p m, (runPipeline env request sess).1 = p ++ [evError ("分析出错: " ++ m)] ∧
      CleanEvs p) := by
  rw [runPipeline]
  rcases pipelineBody_cases env request { events := [], sess := sess, cc := 0, fc := 0 }
      cleanEvs_nil with
    ⟨st', v, heq, p, hev, hp⟩ | ⟨st', heq, p, hev, hp⟩ | ⟨st', m, heq, hcl⟩
  · rw [heq]
    try dsimp only
    left
    exact ⟨p, hev, hp⟩
  · rw [heq]
    try dsimp only
    right; left
    exact ⟨p, hev, hp⟩
  · rw [heq]
    try dsimp only
    right; right
    exact ⟨st'.events, m, rfl, hcl⟩

theorem collectLoop_ok (env : StreamEnv) (keywords : PyStr) (total_ds : Nat)
    (Hc : ∀ k, env.cancel k = false) (Hf : ∀ k, env.commitFail k = none) :
    ∀ (dss : List DataSource) (i : Nat) (st : RunSt) (context : ContextData),
    ∃ st' c evs, collectLoop env keywords total_ds dss i st context = .cont st' c ∧
      st'.events = st.events ++ evs ∧
      ∀ e ∈ evs, (e.event = EvKind.stage_progress ∨ e.event = EvKind.message) ∧
        e.stage = some "data_collection" := by
  intro dss
  induction dss with
  | nil =>
    intro i st context
    exact ⟨st, context, [], by simp [collectLoop], by simp, by simp⟩
  | cons ds rest ih =>
    intro i st context
    have hstep : collectLoop env keywords total_ds (ds :: rest) i st context =
        collectLoop env keywords total_ds rest (i + 1)
          { st with
            cc := st.cc + 1
            events := st.events ++ [evProgress "data_collection"
              ("正在查询数据源: " ++ ds.name) (some ((i * 100) / total_ds))]
            fc := st.fc + 1
            sess := { st.sess with messages := st.sess.messages ++
              [{ role := "assistant"
                 content := "📥 从 **" ++ ds.name ++ "** 收集到 " ++
                   dictGet (dsKey ds) "0 条数据"
                     (collectFromDatasource env.collect ds keywords context).collection_status
                 stage := some "data_collection" }] } }
          (collectFromDatasource env.collect ds keywords context) := by
      simp only [collectLoop, checkCancelB, Hc, Bool.false_eq_true, if_false,
        commitR, addMsg, emitEv, Hf]
    rw [hstep]
    rcases ih (i + 1)
        { st with
          cc := st.cc + 1
          events := st.events ++ [evProgress "data_collection"
            ("正在查询数据源: " ++ ds.name) (some ((i * 100) / total_ds))]
          fc := st.fc + 1
          sess := { st.sess with messages := st.sess.messages ++
            [{ role := "assistant"
               content := "📥 从 **" ++ ds.name ++ "** 收集到 " ++
                 dictGet (dsKey ds) "0 条数据"
                   (collectFromDatasource env.collect ds keywords context).collection_status
               stage := some "data_collection" }] } }
        (collectFromDatasource env.collect ds keywords context) with
      ⟨st', c, evs, heq, hev, hcond⟩
    refine ⟨st', c, evProgress "data_collection" ("正在查询数据源: " ++ ds.name)
        (some ((i * 100) / total_ds)) :: evs, heq, ?_, ?_⟩
    · rw [hev]
      simp
    · intro e he
      rcases List.mem_cons.mp he with rfl | h
      · simp [evProgress]
      · exact hcond e h

theorem stage2Collect_ok (env : StreamEnv) (intent : IntentResult)
    (request : AnalysisRequest)
    (Hc : ∀ k, env.cancel k = false) (Hf : ∀ k, env.commitFail k = none) (st : RunSt) :
    ∃ st' c evs, stage2Collect env intent request st = .cont st' c ∧
      st'.events = st.events ++ evs ∧
      ∀ e ∈ evs, (e.event = EvKind.stage_progress ∨ e.event = EvKind.message) ∧
        e.stage = some "data_collection" := by
  by_cases hds : env.datasources.isEmpty = true
  · exact ⟨_, _,
      [evProgress "data_collection" "未配置数据源，正在加载测试数据..." (some 50)],
      by simp only [stage2Collect, hds, if_true]; rfl,
      by simp [addMsg, emitEv],
      by simp [evProgress]⟩
  · have hds' : env.datasources.isEmpty = false := by simpa using hds
    have hred : stage2Collect env intent request st =
        collectLoop env
          (if !intent.keywords.isEmpty then joinSp intent.keywords
           else extractKeywords request.alert_content)
          env.datasources.length env.datasources 0 st {} := by
      simp only [stage2Collect, hds', Bool.false_eq_true, if_false]
    rw [hred]
    exact collectLoop_ok env _ _ Hc Hf env.datasources 0 st {}

theorem stage2Run_ok (env : StreamEnv) (request : AnalysisRequest) (intent : IntentResult)
    (Hc : ∀ k, env.cancel k = false) (Hf : ∀ k, env.commitFail k = none) (st : RunSt) :
    ∃ st' c b, stage2Run env request intent st = .cont st' c ∧
      st'.events = st.events ++ b ∧ IsStageBlock "data_collection" b := by
  rw [stage2Run]
  simp only [checkCancelB, commitR, emitEv, addMsg, statusSet, Hc, Hf,
    Bool.false_eq_true, if_false]
  try dsimp only
  rcases stage2Collect_ok env intent request Hc Hf
      { events := st.events ++ [evStart "data_collection" "📊 正在收集相关数据..."]
        sess := { st.sess with
          status := "data_collection"
          current_stage := some "data_collection" }
        cc := st.cc + 1
        fc := st.fc + 1 } with ⟨st2, c, evs, heq, hev, hcond⟩
  rw [heq]
  try dsimp only
  try simp only [commitR, Hf, emitEv]
  try dsimp only
  refine ⟨_, c, evStart "data_collection" "📊 正在收集相关数据..." ::
      (evs ++ [evComplete "data_collection" ("✅ 数据收集完成: " ++ toString c.logs.length ++
        " 条日志, " ++ toString c.metrics.length ++ " 条指标")]), rfl, ?_, ?_⟩
  · simp [hev]
  · refine ⟨evStart "data_collection" "📊 正在收集相关数据...", evs,
      evComplete "data_collection" ("✅ 数据收集完成: " ++ toString c.logs.length ++
        " 条日志, " ++ toString c.metrics.length ++ " 条指标"), rfl, ?_, ?_, ?_, ?_, ?_⟩
    · simp [evStart]
    · simp [evStart]
    · simp [evComplete]
    · simp [evComplete]
    · intro e he
      exact hcond e he

theorem stage3Run_ok (env : StreamEnv) (request : AnalysisRequest) (context : ContextData)
    (Hc : ∀ k, env.cancel k = false) (Hf : ∀ k, env.commitFail k = none) (st : RunSt) :
    ∃ st' b, stage3Run env request context st = .cont st' () ∧
      st'.events = st.events ++ b ++ [evDone "分析完成"] ∧
      IsStageBlock "llm_analysis" b := by
  rw [stage3Run]
  simp only [checkCancelB, commitR, emitEv, addMsg, statusSet, Hc, Hf,
    Bool.false_eq_true, if_false, analyzeAlert, emitResultMessages, finishStage3]
  try dsimp only
  generalize analyzeWithOpenai env.llm request.alert_content context.logs context.metrics = R
  refine ⟨_, evStart "llm_analysis" "🤖 正在调用大模型进行分析..." ::
      [evProgress "llm_analysis" "大模型正在思考中..." (some 30),
       evMessage "llm_analysis" ("## 🎯 根因分析\n" ++ R.root_cause),
       evMessage "llm_analysis" ("## 📋 证据\n" ++ R.evidence),
       evMessage "llm_analysis" ("## 🏷️ 问题分类\n" ++ translateCategory R.category),
       evMessage "llm_analysis" ("## 🚑 临时解决方案\n" ++ R.temporary_solution),
       evMessage "llm_analysis" ("## 🔧 根本解决方案\n" ++ R.permanent_solution),
       evMessage "llm_analysis" ("## 📊 置信度\n" ++
         toString (confidencePercent R.confidence) ++ "%")] ++
      [evComplete "llm_analysis" "✅ 分析完成"], rfl, ?_, ?_⟩
  · simp
  · refine ⟨evStart "llm_analysis" "🤖 正在调用大模型进行分析...",
      [evProgress "llm_analysis" "大模型正在思考中..." (some 30),
       evMessage "llm_analysis" ("## 🎯 根因分析\n" ++ R.root_cause),
       evMessage "llm_analysis" ("## 📋 证据\n" ++ R.evidence),
       evMessage "llm_analysis" ("## 🏷️ 问题分类\n" ++ translateCategory R.category),
       evMessage "llm_analysis" ("## 🚑 临时解决方案\n" ++ R.temporary_solution),
       evMessage "llm_analysis" ("## 🔧 根本解决方案\n" ++ R.permanent_solution),
       evMessage "llm_analysis" ("## 📊 置信度\n" ++
         toString (confidencePercent R.confidence) ++ "%")],
      evComplete "llm_analysis" "✅ 分析完成", rfl, ?_, ?_, ?_, ?_, ?_⟩
    · simp [evStart]
    · simp [evStart]
    · simp [evComplete]
    · simp [evComplete]
    · intro e he
      simp only [List.mem_cons, List.not_mem_nil, or_false] at he
      rcases he with rfl | rfl | rfl | rfl | rfl | rfl | rfl <;>
        simp [evProgress, evMessage]

theorem stage23Run_ok (env : StreamEnv) (request : AnalysisRequest) (intent : IntentResult)
    (Hc : ∀ k, env.cancel k = false) (Hf : ∀ k, env.commitFail k = none) (st : RunSt) :
    ∃ st' b2 b3, stage23Run env request intent st = .cont st' () ∧
      st'.events = st.events ++ b2 ++ b3 ++ [evDone "分析完成"] ∧
      IsStageBlock "data_collection" b2 ∧ IsStageBlock "llm_analysis" b3 := by
  rw [stage23Run]
  rcases stage2Run_ok env request intent Hc Hf st with ⟨st2, c, b2, heq, hev2, hb2⟩
  rw [heq]
  try dsimp only
  rcases stage3Run_ok env request c Hc Hf st2 with ⟨st3, b3, heq3, hev3, hb3⟩
  refine ⟨st3, b2, b3, heq3, ?_, hb2, hb3⟩
  rw [hev3, hev2]
  try simp [List.append_assoc]

theorem pipelineBody_ok (env : StreamEnv) (request : AnalysisRequest)
    (Hc : ∀ k, env.cancel k = false) (Hf : ∀ k, env.commitFail k = none) (st0 : RunSt) :
    ∃ st' b1 b2 b3, pipelineBody env request st0 = .cont st' () ∧
      st'.events = st0.events ++ b1 ++ b2 ++ b3 ++ [evDone "分析完成"] ∧
      IsStageBlock "intent_understanding" b1 ∧
      IsStageBlock "data_collection" b2 ∧
      IsStageBlock "llm_analysis" b3 := by
  rw [pipelineBody]
  simp only [checkCancelB, commitR, emitEv, addMsg, statusSet, Hc, Hf,
    Bool.false_eq_true, if_false]
  try dsimp only
  cases hsys : (understandIntent request.alert_content).affected_system with
  | some sys =>
    try dsimp only
    rcases stage23Run_ok env request (understandIntent request.alert_content) Hc Hf
        { events := st0.events ++ [evStart "intent_understanding" "🔍 正在分析告警意图..."] ++
            [evProgress "intent_understanding"
              ("告警摘要: " ++ String.mk (understandIntent request.alert_content).summary)
              (some 100)] ++
            [evComplete "intent_understanding" "✅ 意图分析完成"]
          sess := { st0.sess with
            status := "intent_understanding"
            current_stage := some "intent_understanding"
            messages := st0.sess.messages ++
              [{ role := "assistant"
                 content := "📋 **告警摘要**: " ++
                   String.mk (understandIntent request.alert_content).summary
                 stage := some "intent_understanding" }] ++
              [{ role := "assistant"
                 content := "🏷️ **告警类型**: " ++
                   (understandIntent request.alert_content).alert_type
                 stage := some "intent_understanding" }] ++
              [{ role := "assistant"
                 content := "💻 **影响系统**: " ++ String.mk sys
                 stage := some "intent_understanding" }] ++
              [{ role := "assistant"
                 content := "🔑 **关键词**: " ++
                   String.mk (joinCommaSp (understandIntent request.alert_content).keywords)
                 stage := some "intent_understanding" }]
            intent := some (understandIntent request.alert_content) }
          cc := st0.cc + 1
          fc := st0.fc + 1 + 1 } with ⟨st', b2, b3, heq, hev, hb2, hb3⟩
    refine ⟨st', [evStart "intent_understanding" "🔍 正在分析告警意图...",
        evProgress "intent_understanding"
          ("告警摘要: " ++ String.mk (understandIntent request.alert_content).summary)
          (some 100),
        evComplete "intent_understanding" "✅ 意图分析完成"], b2, b3, heq, ?_, ?_, hb2, hb3⟩
    · rw [hev]
      simp
    · refine ⟨evStart "intent_understanding" "🔍 正在分析告警意图...",
        [evProgress "intent_understanding"
          ("告警摘要: " ++ String.mk (understandIntent request.alert_content).summary)
          (some 100)],
        evComplete "intent_understanding" "✅ 意图分析完成", rfl, ?_, ?_, ?_, ?_, ?_⟩
      · simp [evStart]
      · simp [evStart]
      · simp [evComplete]
      · simp [evComplete]
      · intro e he
        simp only [List.mem_singleton] at he
        subst he
        simp [evProgress]
  | none =>
    try dsimp only
    rcases stage23Run_ok env request (understandIntent request.alert_content) Hc Hf
        { events := st0.events ++ [evStart "intent_understanding" "🔍 正在分析告警意图..."] ++
            [evProgress "intent_understanding"
              ("告警摘要: " ++ String.mk (understandIntent request.alert_content).summary)
              (some 100)] ++
            [evComplete "intent_understanding" "✅ 意图分析完成"]
          sess := { st0.sess with
            status := "intent_understanding"
            current_stage := some "intent_understanding"
            messages := st0.sess.messages ++
              [{ role := "assistant"
                 content := "📋 **告警摘要**: " ++
                   String.mk (understandIntent request.alert_content).summary
                 stage := some "intent_understanding" }] ++
              [{ role := "assistant"
                 content := "🏷️ **告警类型**: " ++
                   (understandIntent request.alert_content).alert_type
                 stage := some "intent_understanding" }] ++
              [{ role := "assistant"
                 content := "🔑 **关键词**: " ++
                   String.mk (joinCommaSp (understandIntent request.alert_content).keywords)
                 stage := some "intent_understanding" }]
            intent := some (understandIntent request.alert_content) }
          cc := st0.cc + 1
          fc := st0.fc + 1 + 1 } with ⟨st', b2, b3, heq, hev, hb2, hb3⟩
    refine ⟨st', [evStart "intent_understanding" "🔍 正在分析告警意图...",
        evProgress "intent_understanding"
          ("告警摘要: " ++ String.mk (understandIntent request.alert_content).summary)
          (some 100),
        evComplete "intent_understanding" "✅ 意图分析完成"], b2, b3, heq, ?_, ?_, hb2, hb3⟩
    · rw [hev]
      simp
    · refine ⟨evStart "intent_understanding" "🔍 正在分析告警意图...",
        [evProgress "intent_understanding"
          ("告警摘要: " ++ String.mk (understandIntent request.alert_content).summary)
          (some 100)],
        evComplete "intent_understanding" "✅ 意图分析完成", rfl, ?_, ?_, ?_, ?_, ?_⟩
      · simp [evStart]
      · simp [evStart]
      · simp [evComplete]
      · simp [evComplete]
      · intro e he
        simp only [List.mem_singleton] at he
        subst he
        simp [evProgress]

theorem string_ne_of_head (s t : String) (h : s.data.head? ≠ t.data.head?) : s ≠ t :=
  fun he => h (by rw [he])

theorem ne_noLogs_collected (x : String) :
    ("收集到 " ++ x ++ " 条日志") ≠ "未找到相关日志" := by
  apply string_ne_of_head
  rw [String.data_append, String.data_append]
  simp

theorem ne_noLogs_fromTest (x : String) :
    ("从测试数据收集到 " ++ x ++ " 条日志") ≠ "未找到相关日志" := by
  apply string_ne_of_head
  rw [String.data_append, String.data_append]
  simp

theorem ne_noMetrics_collected (x : String) :
    ("收集到 " ++ x ++ " 条指标") ≠ "未找到相关指标" := by
  apply string_ne_of_head
  rw [String.data_append, String.data_append]
  simp

theorem ne_noMetrics_fromTest (x : String) :
    ("从测试数据收集到 " ++ x ++ " 条指标") ≠ "未找到相关指标" := by
  apply string_ne_of_head
  rw [String.data_append, String.data_append]
  simp

theorem dictGet_dictSet_self (k d v : String) (m : List (String × String)) :
    dictGet k d (dictSet k v m) = v := by
  induction m with
  | nil => simp [dictSet, dictGet, List.lookup]
  | cons p rest ih =>
    cases p with
    | mk k' v' =>
      by_cases h : k' = k
      · simp [dictSet, h, dictGet, List.lookup]
      · have hbeq : (k == k') = false := by simp [Ne.symm h]
        simp only [dictSet, h, if_false]
        simp only [dictGet, List.lookup, hbeq, Bool.false_eq_true, if_false] at ih ⊢
        exact ih

/-- C4: whenever a run of stream_analysis observes a requested cancellation,
the emitted stream ends in the single cancelled event, with no cancelled or
done event before it and nothing after it; and the cancel endpoint applied to
an active session reports success and stores the cancelled status on the
session. -/
theorem cancellation_observed_terminal (env : StreamEnv) (sess : Session)
    (request : AnalysisRequest) (reg reg' : Registry) (sess' : Session)
    (hobs : ∃ e ∈ (streamAnalysis env sess request reg).events,
      e.event = EvKind.cancelled)
    (hact : sess'.id ∈ reg'.active) :
    (∃ p, (streamAnalysis env sess request reg).events = p ++ [evCancelled] ∧
      ∀ e ∈ p, e.event ≠ EvKind.cancelled ∧ e.event ≠ EvKind.done) ∧
    (cancelAnalysis reg' sess').2.1.status = "cancelled" ∧
    (cancelAnalysis reg' sess').2.2 = "cancelled" := by
  constructor
  · have hev : (streamAnalysis env sess request reg).events =
        (runPipeline env request sess).1 := rfl
    rw [hev] at hobs ⊢
    rcases runPipeline_shape env request sess with
      ⟨p, hp, hc⟩ | ⟨p, hp, hc⟩ | ⟨p, m, hp, hc⟩
    · exfalso
      rcases hobs with ⟨e, he, hee⟩
      rw [hp] at he
      rcases List.mem_append.mp he with h | h
      · exact (hc e h).1 hee
      · simp only [List.mem_singleton] at h
        subst h
        simp [evDone] at hee
    · exact ⟨p, hp, hc⟩
    · exfalso
      rcases hobs with ⟨e, he, hee⟩
      rw [hp] at he
      rcases List.mem_append.mp he with h | h
      · exact (hc e h).1 hee
      · simp only [List.mem_singleton] at h
        subst h
        simp [evError] at hee
  · simp [cancelAnalysis, cancelSession, hact]

theorem cancellation_observed_terminal_witness :
    (∃ p, (streamAnalysis envCancelW sessW reqW regW).events = p ++ [evCancelled] ∧
      ∀ e ∈ p, e.event ≠ EvKind.cancelled ∧ e.event ≠ EvKind.done) ∧
    (cancelAnalysis regActiveW sessW).2.1.status = "cancelled" ∧
    (cancelAnalysis regActiveW sessW).2.2 = "cancelled" :=
  cancellation_observed_terminal envCancelW sessW reqW regW regActiveW sessW
    ⟨evCancelled, by decide, rfl⟩ (by decide)

/-- C1: a run of stream_analysis in which no cancellation is observed and no
commit raises emits exactly the three stage blocks intent_understanding,
data_collection and llm_analysis in this order -- each one stage_start, then
only stage_progress / message events of that stage, then its stage_complete --
followed by the single terminal done event. -/
theorem stream_success_event_order (env : StreamEnv) (sess : Session)
    (request : AnalysisRequest) (reg : Registry)
    (Hc : ∀ k, env.cancel k = false) (Hf : ∀ k, env.commitFail k = none) :
    ∃ b1 b2 b3, (streamAnalysis env sess request reg).events =
      b1 ++ b2 ++ b3 ++ [evDone "分析完成"] ∧
      IsStageBlock "intent_understanding" b1 ∧
      IsStageBlock "data_collection" b2 ∧
      IsStageBlock "llm_analysis" b3 := by
  have hev : (streamAnalysis env sess request reg).events =
      (runPipeline env request sess).1 := rfl
  rw [hev, runPipeline]
  rcases pipelineBody_ok env request Hc Hf { events := [], sess := sess, cc := 0, fc := 0 } with
    ⟨st', b1, b2, b3, heq, hevs, h1, h2, h3⟩
  rw [heq]
  try dsimp only
  exact ⟨b1, b2, b3, by simpa using hevs, h1, h2, h3⟩

theorem stream_success_event_order_witness :
    ∃ b1 b2 b3, (streamAnalysis envOkW sessW reqW regW).events =
      b1 ++ b2 ++ b3 ++ [evDone "分析完成"] ∧
      IsStageBlock "intent_understanding" b1 ∧
      IsStageBlock "data_collection" b2 ∧
      IsStageBlock "llm_analysis" b3 :=
  stream_success_event_order envOkW sessW reqW regW (fun _ => rfl) (fun _ => rfl)

/-- C2: per-source fallback policy of stage-2 collection -- when the connector
returns zero records or raises and the synthetic collaborator has data for the
same query, that data is substituted into the context and the status entry of
the source records the fallback; the source is marked 未找到相关日志 /
未找到相关指标 exactly when both the connector and the collaborator returned
nothing; and with no datasources configured, the collaborator is queried once
with the keywords, filling a fresh context under the test_logs / test_metrics
status keys whenever it has data. -/
theorem collection_fallback_policy (cenv : CollectEnv) (ds : DataSource) (q : PyStr)
    (ctx : ContextData) (kw : PyStr) :
    ((ds.type = .elk ∨ ds.type = .loki) → cenv.connectorLogs ds.id = .ok [] →
      cenv.testLogs q ≠ [] →
      (collectFromDatasource cenv ds q ctx).logs =
        ctx.logs ++ (cenv.testLogs q).map (tagDsLog ds.name) ∧
      dictGet (dsKey ds) "" (collectFromDatasource cenv ds q ctx).collection_status =
        "从测试数据收集到 " ++ toString (cenv.testLogs q).length ++ " 条日志") ∧
    (∀ e, (ds.type = .elk ∨ ds.type = .loki) → cenv.connectorLogs ds.id = .error e →
      cenv.testLogs q ≠ [] →
      (collectFromDatasource cenv ds q ctx).logs =
        ctx.logs ++ (cenv.testLogs q).map tagTestLog ∧
      dictGet (dsKey ds) "" (collectFromDatasource cenv ds q ctx).collection_status =
        "数据源连接失败，从测试数据收集到 " ++ toString (cenv.testLogs q).length ++ " 条日志") ∧
    (∀ logs, (ds.type = .elk ∨ ds.type = .loki) → cenv.connectorLogs ds.id = .ok logs →
      (dictGet (dsKey ds) "" (collectFromDatasource cenv ds q ctx).collection_status =
        "未找到相关日志" ↔ logs = [] ∧ cenv.testLogs q = [])) ∧
    (ds.type = .prometheus → cenv.connectorMetrics ds.id = .ok [] →
      cenv.testMetrics ≠ [] →
      (collectFromDatasource cenv ds q ctx).metrics =
        ctx.metrics ++ cenv.testMetrics.map convertRawMetric ∧
      dictGet (dsKey ds) "" (collectFromDatasource cenv ds q ctx).collection_status =
        "从测试数据收集到 " ++ toString cenv.testMetrics.length ++ " 条指标") ∧
    (∀ e, ds.type = .prometheus → cenv.connectorMetrics ds.id = .error e →
      cenv.testMetrics ≠ [] →
      (collectFromDatasource cenv ds q ctx).metrics =
        ctx.metrics ++ cenv.testMetrics.map convertRawMetric ∧
      dictGet (dsKey ds) "" (collectFromDatasource cenv ds q ctx).collection_status =
        "数据源连接失败，从测试数据收集到 " ++ toString cenv.testMetrics.length ++ " 条指标") ∧
    (∀ ms, ds.type = .prometheus → cenv.connectorMetrics ds.id = .ok ms →
      (dictGet (dsKey ds) "" (collectFromDatasource cenv ds q ctx).collection_status =
        "未找到相关指标" ↔ ms = [] ∧ cenv.testMetrics = [])) ∧
    (cenv.testLogs kw ≠ [] →
      (collectNoDatasources cenv kw).logs = (cenv.testLogs kw).map tagTestLog ∧
      dictGet "test_logs" "" (collectNoDatasources cenv kw).collection_status =
        "从测试数据收集到 " ++ toString (cenv.testLogs kw).length ++ " 条日志" ∧
      (collectNoDatasources cenv kw).logs ≠ []) ∧
    (cenv.testMetrics ≠ [] →
      (collectNoDatasources cenv kw).metrics = cenv.testMetrics.map convertRawMetric ∧
      dictGet "test_metrics" "" (collectNoDatasources cenv kw).collection_status =
        "从测试数据收集到 " ++ toString cenv.testMetrics.length ++ " 条指标" ∧
      (collectNoDatasources cenv kw).metrics ≠ []) := by
  refine ⟨?_, ?_, ?_, ?_, ?_, ?_, ?_, ?_⟩
  · intro hlt hok hne
    cases htl : cenv.testLogs q with
    | nil => exact absurd htl hne
    | cons a l =>
      rcases hlt with h | h <;>
        exact ⟨by simp [collectFromDatasource, h, hok, htl],
          by simp [collectFromDatasource, h, hok, htl, dictGet_dictSet_self]⟩
  · intro e hlt herr hne
    cases htl : cenv.testLogs q with
    | nil => exact absurd htl hne
    | cons a l =>
      rcases hlt with h | h <;>
        exact ⟨by simp [collectFromDatasource, h, herr, htl],
          by simp [collectFromDatasource, h, herr, htl, dictGet_dictSet_self]⟩
  · intro logs hlt hok
    rcases hlt with h | h <;>
    · cases logs with
      | nil =>
        cases htl : cenv.testLogs q with
        | nil =>
          simp [collectFromDatasource, h, hok, htl, dictGet_dictSet_self]
        | cons a l =>
          simp [collectFromDatasource, h, hok, htl, dictGet_dictSet_self,
            ne_noLogs_fromTest]
      | cons a l =>
        simp [collectFromDatasource, h, hok, dictGet_dictSet_self, ne_noLogs_collected]
  · intro hpt hok hne
    cases htm : cenv.testMetrics with
    | nil => exact absurd htm hne
    | cons a l =>
      exact ⟨by simp [collectFromDatasource, hpt, hok, htm],
        by simp [collectFromDatasource, hpt, hok, htm, dictGet_dictSet_self]⟩
  · intro e hpt herr hne
    cases htm : cenv.testMetrics with
    | nil => exact absurd htm hne
    | cons a l =>
      exact ⟨by simp [collectFromDatasource, hpt, herr, htm],
        by simp [collectFromDatasource, hpt, herr, htm, dictGet_dictSet_self]⟩
  · intro ms hpt hok
    cases ms with
    | nil =>
      cases htm : cenv.testMetrics with
      | nil =>
        simp [collectFromDatasource, hpt, hok, htm, dictGet_dictSet_self]
      | cons a l =>
        simp [collectFromDatasource, hpt, hok, htm, dictGet_dictSet_self,
          ne_noMetrics_fromTest]
    | cons a l =>
      simp [collectFromDatasource, hpt, hok, dictGet_dictSet_self, ne_noMetrics_collected]
  · intro hne
    cases htl : cenv.testLogs kw with
    | nil => exact absurd htl hne
    | cons a l =>
      cases htm : cenv.testMetrics with
      | nil =>
        exact ⟨by simp [collectNoDatasources, htl, htm],
          by simp [collectNoDatasources, htl, htm, dictGet_dictSet_self],
          by simp [collectNoDatasources, htl, htm]⟩
      | cons b m =>
        exact ⟨by simp [collectNoDatasources, htl, htm],
          by simp [collectNoDatasources, htl, htm, dictSet, dictGet, List.lookup],
          by simp [collectNoDatasources, htl, htm]⟩
  · intro hne
    cases htm : cenv.testMetrics with
    | nil => exact absurd htm hne
    | cons b m =>
      cases htl : cenv.testLogs kw with
      | nil =>
        exact ⟨by simp [collectNoDatasources, htl, htm],
          by simp [collectNoDatasources, htl, htm, dictGet_dictSet_self],
          by simp [collectNoDatasources, htl, htm]⟩
      | cons a l =>
        exact ⟨by simp [collectNoDatasources, htl, htm],
          by simp [collectNoDatasources, htl, htm, dictGet_dictSet_self],
          by simp [collectNoDatasources, htl, htm]⟩

theorem collection_fallback_policy_witness :
    ((collectFromDatasource cenvC2 dsLC2 qC2 {}).logs =
        [] ++ (cenvC2.testLogs qC2).map (tagDsLog dsLC2.name) ∧
      dictGet (dsKey dsLC2) "" (collectFromDatasource cenvC2 dsLC2 qC2 {}).collection_status =
        "从测试数据收集到 " ++ toString (cenvC2.testLogs qC2).length ++ " 条日志") ∧
    ((collectFromDatasource cenvC2 dsPC2 qC2 {}).metrics =
        [] ++ cenvC2.testMetrics.map convertRawMetric ∧
      dictGet (dsKey dsPC2) "" (collectFromDatasource cenvC2 dsPC2 qC2 {}).collection_status =
        "数据源连接失败，从测试数据收集到 " ++ toString cenvC2.testMetrics.length ++ " 条指标") ∧
    ((collectNoDatasources cenvC2 qC2).logs = (cenvC2.testLogs qC2).map tagTestLog ∧
      dictGet "test_logs" "" (collectNoDatasources cenvC2 qC2).collection_status =
        "从测试数据收集到 " ++ toString (cenvC2.testLogs qC2).length ++ " 条日志" ∧
      (collectNoDatasources cenvC2 qC2).logs ≠ []) :=
  ⟨(collection_fallback_policy cenvC2 dsLC2 qC2 {} qC2).1 (Or.inr rfl) rfl
      (by simp [cenvC2]),
   (collection_fallback_policy cenvC2 dsPC2 qC2 {} qC2).2.2.2.2.1 "boom" rfl rfl
      (by simp [cenvC2]),
   (collection_fallback_policy cenvC2 dsLC2 qC2 {} qC2).2.2.2.2.2.2.1
      (by simp [cenvC2])⟩
